import Mathlib

set_option autoImplicit false

/-!
Shallow embedding of the core numerical routines of the
magnetization-rock-sample repository (`src/code/functions.py`):
`point2grid`, `magnetic_data`, `sensitivity` and `coordplane`.

Conventions of the embedding:
* numpy 1-D arrays become `List ℚ` (or `List ℝ` for `coordplane`, whose
  rotation uses trigonometric functions); Python float literals such as
  `0.000001` are embedded as the exact rationals they denote, since every
  claim under study is about index bookkeeping, branching and exact
  algebraic structure, not about rounding;
* Python `assert` failures and numpy runtime errors become an explicit
  `Except NpError` result; a Python function that raises returns
  `.error e` and never exposes partial output, exactly as an exception
  aborts the call;
* the fatiando field kernels (`prism.bz`, `prism.by`, `sphere.bz`,
  `sphere.by`, `prism.kernelxz`, …) are external collaborators: a single
  source's kernel is kept fully abstract (a function parameter), and the
  library's evaluation of a kernel over a *list* of sources is modelled,
  per the library's superposition contract, as the pointwise sum of the
  single-source values;
* `np.empty` returns arbitrary uninitialized storage; it is modelled by an
  explicit parameter `G0 : ℕ → ℕ → ℚ` holding that arbitrary content.
-/

/-- Runtime failures of the Python code: a failed `assert` (with its
message), a numpy broadcast failure in an in-place slice update, and an
out-of-range indexing (`model[i]`, `list[0]` on an empty list). -/
inductive NpError where
  | assertionError (msg : String)
  | broadcastError
  | indexError
deriving DecidableEq, Repr

/-- Python's `np.arange(a, b)` on integers: the integers `a, a+1, …, b-1`
(empty when `b ≤ a`). -/
def arange (a b : ℤ) : List ℤ :=
  (List.range (b - a).toNat).map (fun (k : ℕ) => a + (k : ℤ))

/-- Row-major flattening of the first output of `np.meshgrid(d*r, d'*r)`:
entry `(i, j)` of the meshgrid's `X` is `d * r[j]`, so the raveled list
repeats the scaled row `r` once per element of `r`. -/
def meshRavelX (d : ℚ) (r : List ℤ) : List ℚ :=
  r.flatMap (fun _ => r.map (fun (rj : ℤ) => d * (rj : ℚ)))

/-- Row-major flattening of the second output of `np.meshgrid(d*r, d'*r)`:
entry `(i, j)` of the meshgrid's `Y` is `d' * r[i]`, so the raveled list
repeats each scaled entry `r.length` times. -/
def meshRavelY (d : ℚ) (r : List ℤ) : List ℚ :=
  r.flatMap (fun (ri : ℤ) => List.replicate r.length (d * (ri : ℚ)))

/-- The tiling `np.resize(v, Q*N).reshape(Q, N).T.ravel()` used by
`point2grid`: `np.resize` cycles `v`, so row `q` of the `(Q, N)` reshape is
`v` itself, and transposing then raveling yields each `v[i]` repeated `Q`
times contiguously. -/
def npTile (v : List ℚ) (Q : ℕ) : List ℚ :=
  v.flatMap (fun vi => List.replicate Q vi)

/-- The in-place offset loop
`for i in range(N): grid[i*Q:(i+1)*Q] += off` applied to `npTile v Q`.
Block `i` of the tiling is `replicate Q (v[i])`, so a successful iteration
turns it into `off.map (v[i] + ·)`.  When `v` is empty the loop body never
runs and the (empty) tiling is returned unchanged.  Otherwise numpy's
in-place broadcasting accepts a right-hand side of length `Q` (elementwise)
or of length 1 (scalar broadcast) and raises a `ValueError` for any other
length; inside `point2grid` the offset list has length 1 only when `ns = 1`,
in which case `Q = 1` as well, so the two accepted cases coincide there. -/
def offsetBlocks (v : List ℚ) (Q : ℕ) (off : List ℚ) : Except NpError (List ℚ) :=
  if v = [] then .ok []
  else if off.length = Q then
    .ok (v.flatMap (fun vi => off.map (fun o => vi + o)))
  else if off.length = 1 then
    .ok (v.flatMap (fun vi => List.replicate Q (vi + off.headI)))
  else .error .broadcastError

/-- Embedding of `point2grid(x, y, effective_area, ns, z)`
(src/code/functions.py, lines 16–71).  The four `assert` statements run
first, in source order; then `dx`, `dy`, `ns2 = ns//2` (Python floor
division), `Q = ns*ns`, the meshgrid of offsets, the tilings, and the
per-block offset loop on the x and y grids.  `z`, when given, is tiled
without offsets. -/
def point2grid (x y : List ℚ) (effective_area : ℚ × ℚ) (ns : ℤ)
    (z : Option (List ℚ)) :
    Except NpError (List ℚ × List ℚ × Option (List ℚ)) :=
  if ¬ (effective_area.1 > 0 ∧ effective_area.2 > 0) then
    .error (.assertionError "effective area must be positive")
  else if ¬ (x.length = y.length) then
    .error (.assertionError "x and y must have the same number of elements")
  else if ¬ (∀ zv ∈ z, x.length = zv.length) then
    .error (.assertionError "x, y and z must have the same number of elements")
  else if ¬ (ns % 2 ≠ 0) then
    .error (.assertionError "ns must be odd")
  else
    let dx : ℚ := (1/1000000) * effective_area.1 / (ns : ℚ)
    let dy : ℚ := (1/1000000) * effective_area.2 / (ns : ℚ)
    let ns2 : ℤ := Int.fdiv ns 2
    let Q : ℕ := (ns * ns).toNat
    let r : List ℤ := arange (-ns2) (ns2 + 1)
    do
      let xgrid ← offsetBlocks x Q (meshRavelX dx r)
      let ygrid ← offsetBlocks y Q (meshRavelY dy r)
      match z with
      | some zv => return (xgrid, ygrid, some (npTile zv Q))
      | none => return (xgrid, ygrid, none)

/-- Pointwise application of a scalar kernel to three coordinate arrays of
equal length, as the fatiando kernels do (`kernel(x, y, z, source)` returns
one value per observation point). -/
def kernelMap (k : ℚ → ℚ → ℚ → ℚ) : List ℚ → List ℚ → List ℚ → List ℚ
  | a :: xs, b :: ys, c :: zs => k a b c :: kernelMap k xs ys zs
  | _, _, _ => []

/-- Evaluation of a fatiando field kernel over a *list* of sources: the
library returns, at each observation point, the sum of the single-source
values (superposition of the fields of independent sources, the library's
documented contract for collections of bodies). -/
def fieldList {σ : Type} (k : ℚ → ℚ → ℚ → σ → ℚ) (xs ys zs : List ℚ)
    (model : List σ) : List ℚ :=
  kernelMap (fun a b c => (model.map (k a b c)).sum) xs ys zs

/-- The reduction `np.mean(np.reshape(v, (N, Q)), axis=1)`: split `v` into
`N` contiguous blocks of length `Q` and replace each block by its
arithmetic mean. -/
def meanBlocks (v : List ℚ) (N Q : ℕ) : List ℚ :=
  (List.range N).map (fun i => ((v.drop (i * Q)).take Q).sum / (Q : ℚ))

/-- The external fatiando kernels consumed by the code, kept fully
abstract: for a single prism, the field components `bz`/`by` and the five
second-derivative kernels; for a single sphere (grain), the field
components.  `σ` is the opaque prism-geometry type and `γ` the opaque
sphere-geometry type. -/
structure Kernels (σ γ : Type) where
  prism_bz : ℚ → ℚ → ℚ → σ → ℚ
  prism_by : ℚ → ℚ → ℚ → σ → ℚ
  kernelxz : ℚ → ℚ → ℚ → σ → ℚ
  kernelyz : ℚ → ℚ → ℚ → σ → ℚ
  kernelzz : ℚ → ℚ → ℚ → σ → ℚ
  kernelxy : ℚ → ℚ → ℚ → σ → ℚ
  kernelyy : ℚ → ℚ → ℚ → σ → ℚ
  sphere_bz : ℚ → ℚ → ℚ → γ → ℚ
  sphere_by : ℚ → ℚ → ℚ → γ → ℚ

/-- Embedding of `magnetic_data(x, y, z, model, alpha, eff_area, grains)`
(src/code/functions.py, lines 73–133).  The `alpha` assertion runs first.
With an effective area, the hard-coded `ns = 7` supersampling grid is
built by `point2grid`, the plane-selected kernel (`bz` for planes 0 and 2,
`by` for planes 1 and 3) is evaluated on all `N·49` grid points, the
result is reshaped to `(N, 49)` and reduced by row means, and an optional
grain contribution is computed the same way from the sphere kernel and
added elementwise.  Without an effective area the kernels are evaluated
directly at the given points. -/
def magnetic_data {σ γ : Type} (K : Kernels σ γ) (x y z : List ℚ)
    (model : List σ) (alpha : ℤ) (eff_area : Option (ℚ × ℚ))
    (grains : Option (List γ)) : Except NpError (List ℚ) :=
  if ¬ (alpha = 0 ∨ alpha = 1 ∨ alpha = 2 ∨ alpha = 3) then
    .error (.assertionError "alpha must be equal to 0, 1, 2 or 3")
  else
    match eff_area with
    | some ea => do
      let (xg, yg, zgOpt) ← point2grid x y ea 7 (some z)
      match zgOpt with
      | none => .error .indexError
      | some zg =>
        let B :=
          if alpha = 0 ∨ alpha = 2 then
            meanBlocks (fieldList K.prism_bz xg yg zg model) x.length 49
          else
            meanBlocks (fieldList K.prism_by xg yg zg model) x.length 49
        match grains with
        | some gr =>
          let Bg :=
            if alpha = 0 ∨ alpha = 2 then
              meanBlocks (fieldList K.sphere_bz xg yg zg gr) x.length 49
            else
              meanBlocks (fieldList K.sphere_by xg yg zg gr) x.length 49
          .ok (List.zipWith (· + ·) B Bg)
        | none => .ok B
    | none =>
      let B :=
        if alpha = 0 ∨ alpha = 2 then fieldList K.prism_bz x y z model
        else fieldList K.prism_by x y z model
      match grains with
      | some gr =>
        let Bg :=
          if alpha = 0 ∨ alpha = 2 then fieldList K.sphere_bz x y z gr
          else fieldList K.sphere_by x y z gr
        .ok (List.zipWith (· + ·) B Bg)
      | none => .ok B

/-- The footprint-averaging branch of `magnetic_data`
(src/code/functions.py, lines 107–121) with the hard-coded resolution
`ns = 7` generalized to a parameter, for stating the `ns = 1` averaging
identity; `magnetic_data` with an effective area and a valid `alpha` is
exactly this procedure at `ns = 7`. -/
def averagedData {σ γ : Type} (K : Kernels σ γ) (x y z : List ℚ)
    (model : List σ) (alpha : ℤ) (ea : ℚ × ℚ) (grains : Option (List γ))
    (ns : ℤ) : Except NpError (List ℚ) := do
  let (xg, yg, zgOpt) ← point2grid x y ea ns (some z)
  match zgOpt with
  | none => .error .indexError
  | some zg =>
    let Q : ℕ := (ns * ns).toNat
    let B :=
      if alpha = 0 ∨ alpha = 2 then
        meanBlocks (fieldList K.prism_bz xg yg zg model) x.length Q
      else
        meanBlocks (fieldList K.prism_by xg yg zg model) x.length Q
    match grains with
    | some gr =>
      let Bg :=
        if alpha = 0 ∨ alpha = 2 then
          meanBlocks (fieldList K.sphere_bz xg yg zg gr) x.length Q
        else
          meanBlocks (fieldList K.sphere_by xg yg zg gr) x.length Q
      .ok (List.zipWith (· + ·) B Bg)
    | none => .ok B

/-- The magnetic constant `CM` of `fatiando.constants` (10⁻⁷ in SI). -/
def CM : ℚ := 1 / 10000000

/-- The tesla-to-nanotesla factor `T2NT` of `fatiando.constants` (10⁹). -/
def T2NT : ℚ := 1000000000

/-- The column assignment `G[:, c] = v` on an `N`-row matrix stored as a
total function: rows `n < v.length` of column `c` receive `v[n]`, every
other entry keeps its previous content. -/
def setCol (G : ℕ → ℕ → ℚ) (c : ℕ) (v : List ℚ) : ℕ → ℕ → ℚ :=
  fun n j => if j = c ∧ n < v.length then v.getD n 0 else G n j

/-- The column-writing loop of `sensitivity`:
`for i, col in enumerate(np.reshape(np.arange(3*P), (P, 3)))` writes, for
prism `i`, the three column lists `col i 0`, `col i 1`, `col i 2` into
columns `3i`, `3i+1`, `3i+2` of the matrix. -/
def sensWrite (col : ℕ → ℕ → List ℚ) (P : ℕ) (G0 : ℕ → ℕ → ℚ) :
    ℕ → ℕ → ℚ :=
  (List.range P).foldl
    (fun G i =>
      setCol (setCol (setCol G (3 * i) (col i 0)) (3 * i + 1) (col i 1))
        (3 * i + 2) (col i 2)) G0

/-- The kernel-selection policy of the `sensitivity` loop body: planes 0
and 2 use the `(kernelxz, kernelyz, kernelzz)` triple, planes 1 and 3 the
`(kernelxy, kernelyy, kernelyz)` triple, and any other `alpha` matches
neither `if` branch, so nothing at all is written (and `model[i]` is never
read). -/
def sensCols {σ γ : Type} (K : Kernels σ γ) (alpha : ℤ) :
    Option ((ℚ → ℚ → ℚ → σ → ℚ) × (ℚ → ℚ → ℚ → σ → ℚ) × (ℚ → ℚ → ℚ → σ → ℚ)) :=
  if alpha = 0 ∨ alpha = 2 then some (K.kernelxz, K.kernelyz, K.kernelzz)
  else if alpha = 1 ∨ alpha = 3 then some (K.kernelxy, K.kernelyy, K.kernelyz)
  else none

/-- Embedding of `sensitivity(P, x, y, z, model, alpha, eff_area)`
(src/code/functions.py, lines 192–246).  `G0` is the arbitrary content of
the uninitialized `np.empty((x.size, 3*P))` storage.  There is no `alpha`
validation: an out-of-range `alpha` writes nothing and the scaled garbage
is returned.  `model[i]` is read only inside the plane branches, and only
for `i < P`; when the model is shorter than `P` the loop hits an index
error before anything is returned.  With an effective area the grid is
built by `point2grid` at the hard-coded `ns = 7` *before* the loop, and
each column is the per-sensor mean over 49 subsamples; without one the
kernels are evaluated directly.  The completed matrix is scaled in place
by `CM * T2NT`. -/
def sensitivity {σ γ : Type} [Inhabited σ] (K : Kernels σ γ) (P : ℕ)
    (x y z : List ℚ) (model : List σ) (alpha : ℤ)
    (eff_area : Option (ℚ × ℚ)) (G0 : ℕ → ℕ → ℚ) :
    Except NpError (ℕ → ℕ → ℚ) :=
  match eff_area with
  | some ea => do
    let (xg, yg, zgOpt) ← point2grid x y ea 7 (some z)
    match zgOpt with
    | none => .error .indexError
    | some zg =>
      match sensCols K alpha with
      | none => .ok (fun n j => CM * T2NT * G0 n j)
      | some (k1, k2, k3) =>
        if model.length < P then .error .indexError
        else
          let col : ℕ → ℕ → List ℚ := fun i s =>
            let m := model.getD i default
            let ker := if s = 0 then k1 else if s = 1 then k2 else k3
            meanBlocks (kernelMap (fun a b c => ker a b c m) xg yg zg)
              x.length 49
          .ok (fun n j => CM * T2NT * sensWrite col P G0 n j)
  | none =>
    match sensCols K alpha with
    | none => .ok (fun n j => CM * T2NT * G0 n j)
    | some (k1, k2, k3) =>
      if model.length < P then .error .indexError
      else
        let col : ℕ → ℕ → List ℚ := fun i s =>
          let m := model.getD i default
          let ker := if s = 0 then k1 else if s = 1 then k2 else k3
          kernelMap (fun a b c => ker a b c m) x y z
        .ok (fun n j => CM * T2NT * sensWrite col P G0 n j)

/-- Modelled external collaborator `numpy.linspace(a, b, n)`: `n` evenly
spaced points from `a` to `b` inclusive (`[a]` when `n = 1`). -/
noncomputable def linspace (a b : ℝ) (n : ℕ) : List ℝ :=
  if n = 1 then [a]
  else (List.range n).map (fun k => a + (b - a) * k / (n - 1))

/-- Modelled external collaborator `fatiando.gridder.regular(area, shape, v)`:
a regular `Nx`-by-`Ny` grid of points over `area = (x1, x2, y1, y2)`,
flattened with the first coordinate varying slowest, together with a third
coordinate array held constant at `v`. -/
noncomputable def regular (area : ℝ × ℝ × ℝ × ℝ) (Nx Ny : ℕ) (v : ℝ) :
    List ℝ × List ℝ × List ℝ :=
  let xs := linspace area.1 area.2.1 Nx
  let ys := linspace area.2.2.1 area.2.2.2 Ny
  (xs.flatMap (fun a => List.replicate Ny a),
   xs.flatMap (fun _ => ys),
   List.replicate (Nx * Ny) v)

/-- Embedding of `coordplane(h, L, Nx, Ny, area, alpha, theta)`
(src/code/functions.py, lines 388–444).  `voo = h·1e-6 + 0.5·L`;
`theta` is converted from degrees by `np.deg2rad`.  Planes 0 and 2 take
`(x, y, z) = regular(area, shape, ∓voo)` (constant `z`, `-voo` for plane 0
and `+voo` for plane 2) and rotate `(x, y)`; planes 1 and 3 take
`(x, z, y) = regular(area, shape, ±voo)` (constant `y`, `+voo` for plane 1
and `-voo` for plane 3) and rotate `(x, z)`.  For any other `alpha` the
rotated-coordinate lists stay empty and the final `x_rot[0]` indexing
raises. -/
noncomputable def coordplane (h L : ℝ) (Nx Ny : ℕ) (area : ℝ × ℝ × ℝ × ℝ)
    (alpha : ℤ) (theta : ℝ) : Except NpError (List ℝ × List ℝ × List ℝ) :=
  let voo := h * (1 / 1000000) + (1 / 2) * L
  let ang := theta * (Real.pi / 180)
  let c := Real.cos ang
  let s := Real.sin ang
  if alpha = 0 then
    let g := regular area Nx Ny (-voo)
    .ok (List.zipWith (fun a b => c * a - s * b) g.1 g.2.1,
         List.zipWith (fun a b => s * a + c * b) g.1 g.2.1, g.2.2)
  else if alpha = 1 then
    let g := regular area Nx Ny voo
    .ok (List.zipWith (fun a b => c * a - s * b) g.1 g.2.1,
         g.2.2,
         List.zipWith (fun a b => s * a + c * b) g.1 g.2.1)
  else if alpha = 2 then
    let g := regular area Nx Ny voo
    .ok (List.zipWith (fun a b => c * a - s * b) g.1 g.2.1,
         List.zipWith (fun a b => s * a + c * b) g.1 g.2.1, g.2.2)
  else if alpha = 3 then
    let g := regular area Nx Ny (-voo)
    .ok (List.zipWith (fun a b => c * a - s * b) g.1 g.2.1,
         g.2.2,
         List.zipWith (fun a b => s * a + c * b) g.1 g.2.1)
  else .error .indexError

/-- A concrete kernel family over opaque unit geometries, used to
instantiate the abstract fatiando kernels in witnesses. -/
def unitKernels : Kernels Unit Unit where
  prism_bz := fun a b c _ => a + b + c
  prism_by := fun a b c _ => a * b + c
  kernelxz := fun a _ _ _ => a
  kernelyz := fun _ b _ _ => b
  kernelzz := fun _ _ c _ => c
  kernelxy := fun a b _ _ => a * b
  kernelyy := fun _ b _ _ => b * b
  sphere_bz := fun a _ _ _ => 2 * a
  sphere_by := fun _ b _ _ => 3 * b

/-- The value `sensitivity` assigns to row `n` of the column driven by a
single kernel `ker` and a single prism `m` (before the `CM * T2NT`
scaling): the kernel at the sensor point when no effective area is given,
the 49-subsample mean over the `ns = 7` grid otherwise.  It depends only
on the kernel, the sensor coordinates, the effective area and the one
prism `m`. -/
def sensColValue {σ : Type} (ker : ℚ → ℚ → ℚ → σ → ℚ) (x y z : List ℚ)
    (ea? : Option (ℚ × ℚ)) (m : σ) (n : ℕ) : ℚ :=
  match ea? with
  | none => ker (x.getD n 0) (y.getD n 0) (z.getD n 0) m
  | some ea =>
    match point2grid x y ea 7 (some z) with
    | .ok (xg, yg, some zg) =>
      (meanBlocks (kernelMap (fun a b c => ker a b c m) xg yg zg)
        x.length 49).getD n 0
    | _ => 0

/-- A kernel family over a prism-geometry type with two distinct elements,
so that the two models of the C9 witness can genuinely differ on the other
prism. -/
def boolKernels : Kernels Bool Unit where
  prism_bz := fun a b c g => if g then a + b + c else c
  prism_by := fun a b c g => if g then a * b else c
  kernelxz := fun a _ _ g => if g then a else 2 * a
  kernelyz := fun _ b _ g => if g then b else 3 * b
  kernelzz := fun _ _ c g => if g then c else 5 * c
  kernelxy := fun a b _ g => if g then a * b else a
  kernelyy := fun _ b _ g => if g then b * b else b
  sphere_bz := fun a _ _ _ => 2 * a
  sphere_by := fun _ b _ _ => 3 * b


deriving instance DecidableEq for Except

example : arange (-1) 2 = [-1, 0, 1] := by decide
example : point2grid [0] [0] (1, 1) 2 none =
    .error (.assertionError "ns must be odd") := by decide
example : point2grid [0] [0] (0, 5) 3 none =
    .error (.assertionError "effective area must be positive") := by decide
example : point2grid [0] [0] (1, 1) (-3) none = .error .broadcastError := by decide
example : point2grid ([] : List ℚ) [] (1, 1) (-3) none = .ok ([], [], none) := by decide

/-! Generic lemmas about flattened per-block representations. -/

theorem flatMap_length_const {α β : Type} (l : List α) (f : α → List β)
    (Q : ℕ) (h : ∀ a ∈ l, (f a).length = Q) :
    (l.flatMap f).length = l.length * Q := by
  induction l with
  | nil => simp
  | cons a t ih =>
    simp only [List.flatMap_cons, List.length_append, List.length_cons]
    rw [h a (by simp), ih (fun b hb => h b (by simp [hb]))]
    ring

theorem flatMap_getD_block {α β : Type} (l : List α) (f : α → List β)
    (Q : ℕ) (h : ∀ a ∈ l, (f a).length = Q) (i q : ℕ) (hi : i < l.length)
    (hq : q < Q) (d : β) (d' : α) :
    (l.flatMap f).getD (i * Q + q) d = (f (l.getD i d')).getD q d := by
  induction l generalizing i with
  | nil => simp at hi
  | cons a t ih =>
    rw [List.flatMap_cons]
    cases i with
    | zero =>
      simp only [Nat.zero_mul, Nat.zero_add, List.getD_cons_zero]
      exact List.getD_append _ _ _ _ (by rw [h a (by simp)]; exact hq)
    | succ i =>
      have hfa : (f a).length = Q := h a (by simp)
      have hidx : (i + 1) * Q + q = (f a).length + (i * Q + q) := by
        rw [hfa]; ring
      rw [hidx, List.getD_append_right _ _ _ _ (by omega), Nat.add_sub_cancel_left,
        List.getD_cons_succ]
      exact ih (fun b hb => h b (by simp [hb])) i (by simpa using hi)

theorem flatMap_drop_block {α β : Type} (l : List α) (f : α → List β)
    (Q : ℕ) (h : ∀ a ∈ l, (f a).length = Q) (i : ℕ) (hi : i ≤ l.length) :
    (l.flatMap f).drop (i * Q) = (l.drop i).flatMap f := by
  induction l generalizing i with
  | nil => simp
  | cons a t ih =>
    cases i with
    | zero => simp
    | succ i =>
      rw [List.flatMap_cons]
      have hfa : (f a).length = Q := h a (by simp)
      have hidx : (i + 1) * Q = (f a).length + i * Q := by rw [hfa]; ring
      rw [hidx, List.drop_append, List.drop_succ_cons]
      exact ih (fun b hb => h b (by simp [hb])) i (by simpa using hi)

theorem flatMap_block {α β : Type} (l : List α) (f : α → List β)
    (Q : ℕ) (h : ∀ a ∈ l, (f a).length = Q) (i : ℕ) (hi : i < l.length)
    (d' : α) :
    ((l.flatMap f).drop (i * Q)).take Q = f (l.getD i d') := by
  rw [flatMap_drop_block l f Q h i (le_of_lt hi)]
  obtain ⟨b, t, hbt⟩ : ∃ b t, l.drop i = b :: t := by
    cases hd : l.drop i with
    | nil => exfalso; have := List.drop_eq_nil_iff.mp hd; omega
    | cons b t => exact ⟨b, t, rfl⟩
  have hb : l.getD i d' = b := by
    have : l.getD i d' = (l.drop i).getD 0 d' := by
      rw [List.getD_eq_getElem?_getD, List.getD_eq_getElem?_getD,
        List.getElem?_drop, Nat.add_zero]
    rw [this, hbt]; rfl
  rw [hbt, List.flatMap_cons, hb]
  have hfb : (f b).length = Q := by
    apply h b
    have hbmem : b ∈ l.drop i := by rw [hbt]; simp
    exact List.mem_of_mem_drop hbmem
  rw [← hfb, List.take_left]

/-! Lemmas about `arange` and symmetric offset sums. -/

theorem arange_length (a b : ℤ) : (arange a b).length = (b - a).toNat := by
  rw [arange, List.length_map, List.length_range]

theorem arange_getD (a b : ℤ) (k : ℕ) (hk : k < (b - a).toNat) :
    (arange a b).getD k 0 = a + k := by
  rw [List.getD_eq_getElem _ _ (by rw [arange_length]; exact hk)]
  simp only [arange, List.getElem_map, List.getElem_range]

theorem list_range_map_sum {M : Type} [AddCommMonoid M] (f : ℕ → M) (n : ℕ) :
    ((List.range n).map f).sum = ∑ i ∈ Finset.range n, f i := by
  induction n with
  | zero => simp
  | succ n ih =>
    rw [List.range_succ, List.map_append, List.sum_append, Finset.sum_range_succ, ih]
    simp

theorem arange_sym_sum (n : ℕ) : (arange (-(n : ℤ)) ((n : ℤ) + 1)).sum = 0 := by
  have hcnt : ((n : ℤ) + 1 - -(n : ℤ)).toNat = 2 * n + 1 := by omega
  have h2 := Finset.sum_range_id_mul_two (2 * n + 1)
  have h3 : (2 * n + 1) * (2 * n + 1 - 1) = (2 * n + 1) * n * 2 := by
    have he : 2 * n + 1 - 1 = 2 * n := by omega
    rw [he]; ring
  have hn : ∑ i ∈ Finset.range (2 * n + 1), i = (2 * n + 1) * n :=
    Nat.eq_of_mul_eq_mul_right (by norm_num) (h2.trans h3)
  have hgauss : ∑ i ∈ Finset.range (2 * n + 1), (i : ℤ) = (2 * (n : ℤ) + 1) * n := by
    have hc := congrArg (fun m : ℕ => (m : ℤ)) hn
    push_cast at hc
    exact hc
  simp only [arange]
  rw [hcnt, list_range_map_sum]
  rw [Finset.sum_add_distrib, Finset.sum_const, Finset.card_range, hgauss]
  push_cast [nsmul_eq_mul]
  ring

theorem sum_map_int_mul (d : ℚ) (r : List ℤ) :
    (r.map (fun (rj : ℤ) => d * (rj : ℚ))).sum = d * ((r.sum : ℤ) : ℚ) := by
  induction r with
  | nil => simp
  | cons a t ih =>
    simp only [List.map_cons, List.sum_cons, ih]
    push_cast
    ring

/-! Lemmas about `kernelMap`. -/

theorem kernelMap_length (k : ℚ → ℚ → ℚ → ℚ) (xs ys zs : List ℚ)
    (hy : ys.length = xs.length) (hz : zs.length = xs.length) :
    (kernelMap k xs ys zs).length = xs.length := by
  induction xs generalizing ys zs with
  | nil => cases ys <;> cases zs <;> simp_all [kernelMap]
  | cons a t ih =>
    cases ys with
    | nil => simp at hy
    | cons b ys =>
      cases zs with
      | nil => simp at hz
      | cons c zs =>
        simp only [kernelMap, List.length_cons] at *
        rw [ih ys zs (by omega) (by omega)]

theorem kernelMap_getD (k : ℚ → ℚ → ℚ → ℚ) (xs ys zs : List ℚ) (n : ℕ)
    (hn : n < xs.length) (hy : ys.length = xs.length)
    (hz : zs.length = xs.length) :
    (kernelMap k xs ys zs).getD n 0 =
      k (xs.getD n 0) (ys.getD n 0) (zs.getD n 0) := by
  induction xs generalizing ys zs n with
  | nil => simp at hn
  | cons a t ih =>
    cases ys with
    | nil => simp at hy
    | cons b ys =>
      cases zs with
      | nil => simp at hz
      | cons c zs =>
        cases n with
        | zero => simp [kernelMap]
        | succ n =>
          simp only [kernelMap, List.getD_cons_succ]
          exact ih ys zs n (by simpa using hn) (by simpa using hy) (by simpa using hz)

theorem kernelMap_drop (k : ℚ → ℚ → ℚ → ℚ) (m : ℕ) (xs ys zs : List ℚ) :
    (kernelMap k xs ys zs).drop m =
      kernelMap k (xs.drop m) (ys.drop m) (zs.drop m) := by
  induction m generalizing xs ys zs with
  | zero => simp
  | succ m ih =>
    cases xs with
    | nil => simp [kernelMap]
    | cons a t =>
      cases ys with
      | nil => simp [kernelMap]
      | cons b ys =>
        cases zs with
        | nil => simp [kernelMap]
        | cons c zs => simp only [kernelMap, List.drop_succ_cons]; exact ih t ys zs

theorem kernelMap_take (k : ℚ → ℚ → ℚ → ℚ) (m : ℕ) (xs ys zs : List ℚ) :
    (kernelMap k xs ys zs).take m =
      kernelMap k (xs.take m) (ys.take m) (zs.take m) := by
  induction m generalizing xs ys zs with
  | zero => simp [kernelMap]
  | succ m ih =>
    cases xs with
    | nil => simp [kernelMap]
    | cons a t =>
      cases ys with
      | nil => simp [kernelMap]
      | cons b ys =>
        cases zs with
        | nil => simp [kernelMap]
        | cons c zs => simp only [kernelMap, List.take_succ_cons]; rw [ih t ys zs]

theorem kernelMap_add (k1 k2 : ℚ → ℚ → ℚ → ℚ) (xs ys zs : List ℚ) :
    kernelMap (fun a b c => k1 a b c + k2 a b c) xs ys zs =
      List.zipWith (· + ·) (kernelMap k1 xs ys zs) (kernelMap k2 xs ys zs) := by
  induction xs generalizing ys zs with
  | nil => cases ys <;> cases zs <;> simp [kernelMap]
  | cons a t ih =>
    cases ys with
    | nil => simp [kernelMap]
    | cons b ys =>
      cases zs with
      | nil => simp [kernelMap]
      | cons c zs => simp only [kernelMap, List.zipWith_cons_cons]; rw [ih ys zs]

theorem sum_zipWith_add (u v : List ℚ) (h : u.length = v.length) :
    (List.zipWith (· + ·) u v).sum = u.sum + v.sum := by
  induction u generalizing v with
  | nil => cases v <;> simp_all
  | cons a t ih =>
    cases v with
    | nil => simp at h
    | cons b v =>
      simp only [List.zipWith_cons_cons, List.sum_cons, ih v (by simpa using h)]
      ring

/-! Characterization of a successful `point2grid` call. -/

theorem odd_pos_structure {ns : ℤ} (hodd : ns % 2 ≠ 0) (hpos : 0 < ns) :
    2 * Int.fdiv ns 2 + 1 = ns ∧ 0 ≤ Int.fdiv ns 2 := by
  have hf : Int.fdiv ns 2 = ns / 2 := Int.fdiv_eq_ediv _ (by norm_num)
  have h1 := Int.ediv_add_emod ns 2
  have h2 : ns % 2 = 1 := by omega
  constructor <;> omega

theorem meshRavelX_length (d : ℚ) (r : List ℤ) :
    (meshRavelX d r).length = r.length * r.length := by
  rw [meshRavelX]
  exact flatMap_length_const r _ r.length (fun a _ => by rw [List.length_map])

theorem meshRavelY_length (d : ℚ) (r : List ℤ) :
    (meshRavelY d r).length = r.length * r.length := by
  rw [meshRavelY]
  exact flatMap_length_const r _ r.length (fun a _ => by rw [List.length_replicate])

theorem point2grid_eq (x y z : List ℚ) (lx ly : ℚ) (ns : ℤ)
    (hlx : 0 < lx) (hly : 0 < ly) (hxy : x.length = y.length)
    (hxz : x.length = z.length) (hodd : ns % 2 ≠ 0) (hpos : 0 < ns) :
    point2grid x y (lx, ly) ns (some z) =
      .ok (x.flatMap (fun xi =>
             (meshRavelX ((1/1000000) * lx / (ns : ℚ))
               (arange (-(Int.fdiv ns 2)) (Int.fdiv ns 2 + 1))).map
               (fun o => xi + o)),
           y.flatMap (fun yi =>
             (meshRavelY ((1/1000000) * ly / (ns : ℚ))
               (arange (-(Int.fdiv ns 2)) (Int.fdiv ns 2 + 1))).map
               (fun o => yi + o)),
           some (npTile z (ns * ns).toNat)) := by
  obtain ⟨hns21, hns2nn⟩ := odd_pos_structure hodd hpos
  have hrlen : (arange (-(Int.fdiv ns 2)) (Int.fdiv ns 2 + 1)).length = ns.toNat := by
    rw [arange_length]; omega
  have hQ : ((ns * ns).toNat) = ns.toNat * ns.toNat := by
    have h := Int.toNat_of_nonneg hpos.le
    calc (ns * ns).toNat = (((ns.toNat : ℤ)) * ((ns.toNat : ℤ))).toNat := by rw [h]
    _ = ((((ns.toNat * ns.toNat : ℕ)) : ℤ)).toNat := by push_cast; ring_nf
    _ = ns.toNat * ns.toNat := Int.toNat_natCast _
  have hoffX : (meshRavelX ((1/1000000) * lx / (ns : ℚ))
      (arange (-(Int.fdiv ns 2)) (Int.fdiv ns 2 + 1))).length = (ns * ns).toNat := by
    rw [meshRavelX_length, hrlen, hQ]
  have hoffY : (meshRavelY ((1/1000000) * ly / (ns : ℚ))
      (arange (-(Int.fdiv ns 2)) (Int.fdiv ns 2 + 1))).length = (ns * ns).toNat := by
    rw [meshRavelY_length, hrlen, hQ]
  have hxg : offsetBlocks x ((ns * ns).toNat)
      (meshRavelX ((1/1000000) * lx / (ns : ℚ))
        (arange (-(Int.fdiv ns 2)) (Int.fdiv ns 2 + 1))) =
      .ok (x.flatMap (fun xi =>
        (meshRavelX ((1/1000000) * lx / (ns : ℚ))
          (arange (-(Int.fdiv ns 2)) (Int.fdiv ns 2 + 1))).map
          (fun o => xi + o))) := by
    by_cases hx : x = []
    · subst hx; rw [offsetBlocks, if_pos rfl]; rfl
    · rw [offsetBlocks, if_neg hx, if_pos hoffX]
  have hyg : offsetBlocks y ((ns * ns).toNat)
      (meshRavelY ((1/1000000) * ly / (ns : ℚ))
        (arange (-(Int.fdiv ns 2)) (Int.fdiv ns 2 + 1))) =
      .ok (y.flatMap (fun yi =>
        (meshRavelY ((1/1000000) * ly / (ns : ℚ))
          (arange (-(Int.fdiv ns 2)) (Int.fdiv ns 2 + 1))).map
          (fun o => yi + o))) := by
    by_cases hy : y = []
    · subst hy; rw [offsetBlocks, if_pos rfl]; rfl
    · rw [offsetBlocks, if_neg hy, if_pos hoffY]
  have hzy : z.length = y.length := by omega
  simp only [point2grid, hlx, hly, hxz, hzy, hxy, Option.mem_def, Option.some.injEq,
    forall_eq', gt_iff_lt, and_true, true_and, not_true_eq_false, not_false_eq_true,
    if_false, if_true, ne_eq, hodd, hxg, hyg]
  simp only [Bind.bind, Except.bind]
  rfl

/-! Entry-level and sum-level lemmas for the supersampling grids. -/

theorem meshRavelX_getD (d : ℚ) (r : List ℤ) (u v : ℕ) (hu : u < r.length)
    (hv : v < r.length) :
    (meshRavelX d r).getD (u * r.length + v) 0 = d * ((r.getD v 0 : ℤ) : ℚ) := by
  rw [meshRavelX,
    flatMap_getD_block r _ r.length (fun a _ => by rw [List.length_map]) u v hu hv 0 0]
  rw [List.getD_eq_getElem _ _ (by rw [List.length_map]; exact hv), List.getElem_map,
    List.getD_eq_getElem _ _ hv]

theorem meshRavelY_getD (d : ℚ) (r : List ℤ) (u v : ℕ) (hu : u < r.length)
    (hv : v < r.length) :
    (meshRavelY d r).getD (u * r.length + v) 0 = d * ((r.getD u 0 : ℤ) : ℚ) := by
  rw [meshRavelY,
    flatMap_getD_block r _ r.length (fun a _ => by rw [List.length_replicate]) u v hu hv 0 0]
  rw [List.getD_eq_getElem _ _ (by rw [List.length_replicate]; exact hv),
    List.getElem_replicate]

theorem sum_flatMap_rat {α : Type} (l : List α) (f : α → List ℚ) :
    (l.flatMap f).sum = (l.map (fun a => (f a).sum)).sum := by
  induction l with
  | nil => simp
  | cons a t ih => simp [List.flatMap_cons, List.sum_append, ih]

theorem meshRavelX_sum (d : ℚ) (r : List ℤ) :
    (meshRavelX d r).sum = (r.length : ℚ) * (d * ((r.sum : ℤ) : ℚ)) := by
  rw [meshRavelX, sum_flatMap_rat]
  rw [show (r.map (fun _ => (r.map (fun (rj : ℤ) => d * (rj : ℚ))).sum)) =
      List.replicate r.length (r.map (fun (rj : ℤ) => d * (rj : ℚ))).sum from
    List.map_const' ..]
  rw [List.sum_replicate, sum_map_int_mul, nsmul_eq_mul]

theorem meshRavelY_sum (d : ℚ) (r : List ℤ) :
    (meshRavelY d r).sum = (r.length : ℚ) * (d * ((r.sum : ℤ) : ℚ)) := by
  rw [meshRavelY, sum_flatMap_rat]
  have hmap : r.map (fun (ri : ℤ) => (List.replicate r.length (d * (ri : ℚ))).sum) =
      r.map (fun (ri : ℤ) => ((r.length : ℚ) * d) * (ri : ℚ)) := by
    apply List.map_congr_left
    intro a _
    rw [List.sum_replicate, nsmul_eq_mul]
    ring
  rw [hmap, sum_map_int_mul]
  ring

theorem arange_sym_sum_int (m : ℤ) (hm : 0 ≤ m) : (arange (-m) (m + 1)).sum = 0 := by
  have h := arange_sym_sum m.toNat
  rwa [Int.toNat_of_nonneg hm] at h

theorem sum_map_add_const (xi : ℚ) (l : List ℚ) :
    (l.map (fun o => xi + o)).sum = (l.length : ℚ) * xi + l.sum := by
  induction l with
  | nil => simp
  | cons a t ih =>
    simp only [List.map_cons, List.sum_cons, ih, List.length_cons]
    push_cast
    ring

theorem block_list_eq (v : List ℚ) (a Q : ℕ) (h : a + Q ≤ v.length) :
    (v.drop a).take Q = (List.range Q).map (fun q => v.getD (a + q) 0) := by
  apply List.ext_getElem
  · rw [List.length_take, List.length_drop, List.length_map, List.length_range]
    omega
  · intro i h1 h2
    rw [List.length_take, List.length_drop] at h1
    rw [List.getElem_take, List.getElem_drop, List.getElem_map, List.getElem_range,
      List.getD_eq_getElem _ _ (by omega)]

theorem block_sum_eq (v : List ℚ) (a Q : ℕ) (h : a + Q ≤ v.length) :
    ((v.drop a).take Q).sum = ∑ q ∈ Finset.range Q, v.getD (a + q) 0 := by
  rw [block_list_eq v a Q h, list_range_map_sum]

theorem meanBlocks_length (v : List ℚ) (N Q : ℕ) :
    (meanBlocks v N Q).length = N := by
  simp [meanBlocks]

theorem meanBlocks_getD (v : List ℚ) (N Q n : ℕ) (hn : n < N) :
    (meanBlocks v N Q).getD n 0 = ((v.drop (n * Q)).take Q).sum / (Q : ℚ) := by
  rw [meanBlocks, List.getD_eq_getElem _ _ (by simpa using hn), List.getElem_map,
    List.getElem_range]

theorem npTile_length (v : List ℚ) (Q : ℕ) : (npTile v Q).length = v.length * Q := by
  rw [npTile]
  exact flatMap_length_const v _ Q (fun a _ => List.length_replicate ..)

theorem npTile_getD (v : List ℚ) (Q : ℕ) (i q : ℕ) (hi : i < v.length) (hq : q < Q) :
    (npTile v Q).getD (i * Q + q) 0 = v.getD i 0 := by
  rw [npTile,
    flatMap_getD_block v _ Q (fun a _ => List.length_replicate ..) i q hi hq 0 0]
  rw [List.getD_eq_getElem _ _ (by rw [List.length_replicate]; exact hq),
    List.getElem_replicate]

theorem offsetGrid_length (x : List ℚ) (off : List ℚ) (Q : ℕ) (hQ : off.length = Q) :
    (x.flatMap (fun xi => off.map (fun o => xi + o))).length = x.length * Q :=
  flatMap_length_const x _ Q (fun a _ => by rw [List.length_map, hQ])

theorem offsetGrid_getD (x : List ℚ) (off : List ℚ) (Q : ℕ) (hQ : off.length = Q)
    (i q : ℕ) (hi : i < x.length) (hq : q < Q) :
    (x.flatMap (fun xi => off.map (fun o => xi + o))).getD (i * Q + q) 0 =
      x.getD i 0 + off.getD q 0 := by
  rw [flatMap_getD_block x _ Q (fun a _ => by rw [List.length_map, hQ]) i q hi hq 0 0]
  rw [List.getD_eq_getElem _ _ (by rw [List.length_map, hQ]; exact hq),
    List.getElem_map, List.getD_eq_getElem off 0 (by rw [hQ]; exact hq)]

theorem offsetGrid_block (x : List ℚ) (off : List ℚ) (Q : ℕ) (hQ : off.length = Q)
    (i : ℕ) (hi : i < x.length) :
    ((x.flatMap (fun xi => off.map (fun o => xi + o))).drop (i * Q)).take Q =
      off.map (fun o => x.getD i 0 + o) := by
  rw [flatMap_block x _ Q (fun a _ => by rw [List.length_map, hQ]) i hi 0]

theorem npTile_block (v : List ℚ) (Q : ℕ) (i : ℕ) (hi : i < v.length) :
    ((npTile v Q).drop (i * Q)).take Q = List.replicate Q (v.getD i 0) := by
  rw [npTile, flatMap_block v _ Q (fun a _ => List.length_replicate ..) i hi 0]

theorem index_pack_lt {u v m : ℕ} (hu : u < m) (hv : v < m) : u * m + v < m * m :=
  calc u * m + v < u * m + m := by omega
  _ = (u + 1) * m := by ring
  _ ≤ m * m := Nat.mul_le_mul_right m hu

/-- Full structure of a successful `point2grid` call with a `z` array:
lengths `N·ns²`, row-major per-center offset blocks, unshifted `z`
replication, and exact per-block means. -/
theorem point2grid_structure (x y z : List ℚ) (lx ly : ℚ) (ns : ℤ)
    (hlx : 0 < lx) (hly : 0 < ly) (hxy : x.length = y.length)
    (hxz : x.length = z.length) (hodd : ns % 2 ≠ 0) (hpos : 0 < ns) :
    ∃ xg yg zg : List ℚ,
      point2grid x y (lx, ly) ns (some z) = .ok (xg, yg, some zg) ∧
      xg.length = x.length * ns.toNat ^ 2 ∧
      yg.length = x.length * ns.toNat ^ 2 ∧
      zg.length = x.length * ns.toNat ^ 2 ∧
      (∀ i < x.length, ∀ u < ns.toNat, ∀ v < ns.toNat,
        xg.getD (i * ns.toNat ^ 2 + u * ns.toNat + v) 0 =
          x.getD i 0 +
            (1/1000000) * lx / (ns : ℚ) * (((v : ℤ) - Int.fdiv ns 2 : ℤ) : ℚ) ∧
        yg.getD (i * ns.toNat ^ 2 + u * ns.toNat + v) 0 =
          y.getD i 0 +
            (1/1000000) * ly / (ns : ℚ) * (((u : ℤ) - Int.fdiv ns 2 : ℤ) : ℚ) ∧
        zg.getD (i * ns.toNat ^ 2 + u * ns.toNat + v) 0 = z.getD i 0) ∧
      (∀ i < x.length,
        ((xg.drop (i * ns.toNat ^ 2)).take (ns.toNat ^ 2)).sum / ((ns.toNat : ℚ) ^ 2) =
          x.getD i 0 ∧
        ((yg.drop (i * ns.toNat ^ 2)).take (ns.toNat ^ 2)).sum / ((ns.toNat : ℚ) ^ 2) =
          y.getD i 0 ∧
        ((zg.drop (i * ns.toNat ^ 2)).take (ns.toNat ^ 2)).sum / ((ns.toNat : ℚ) ^ 2) =
          z.getD i 0) := by
  obtain ⟨hns21, hns2nn⟩ := odd_pos_structure hodd hpos
  set m : ℕ := ns.toNat with hm
  set ns2 : ℤ := Int.fdiv ns 2 with hns2
  set r : List ℤ := arange (-ns2) (ns2 + 1) with hr
  set dx : ℚ := (1/1000000) * lx / (ns : ℚ) with hdx
  set dy : ℚ := (1/1000000) * ly / (ns : ℚ) with hdy
  have hrlen : r.length = m := by rw [hr, arange_length]; omega
  have hmpos : 0 < m := by omega
  have hQnz : ((m : ℚ) ^ 2) ≠ 0 := by positivity
  have hrsum : r.sum = 0 := arange_sym_sum_int ns2 hns2nn
  have hoffX : (meshRavelX dx r).length = m ^ 2 := by
    rw [meshRavelX_length, hrlen]; ring
  have hoffY : (meshRavelY dy r).length = m ^ 2 := by
    rw [meshRavelY_length, hrlen]; ring
  have hQm : (ns * ns).toNat = m ^ 2 := by
    have h := Int.toNat_of_nonneg hpos.le
    calc (ns * ns).toNat = (((m : ℤ)) * ((m : ℤ))).toNat := by rw [h]
    _ = ((((m * m : ℕ)) : ℤ)).toNat := by push_cast; ring_nf
    _ = m * m := Int.toNat_natCast _
    _ = m ^ 2 := by ring
  have heq := point2grid_eq x y z lx ly ns hlx hly hxy hxz hodd hpos
  rw [hQm] at heq
  refine ⟨_, _, _, heq, ?_, ?_, ?_, ?_, ?_⟩
  · rw [offsetGrid_length x _ _ hoffX]
  · rw [offsetGrid_length y _ _ hoffY, hxy]
  · rw [npTile_length, hxz]
  · intro i hi u hu v hv
    have huv : u * m + v < m ^ 2 := by
      have := index_pack_lt hu hv
      calc u * m + v < m * m := this
      _ = m ^ 2 := by ring
    have hidx : i * m ^ 2 + u * m + v = i * m ^ 2 + (u * m + v) := by omega
    have hvr : v < ((ns2 + 1) - -ns2).toNat := by omega
    have hur : u < ((ns2 + 1) - -ns2).toNat := by omega
    refine ⟨?_, ?_, ?_⟩
    · rw [hidx, offsetGrid_getD x _ _ hoffX i _ hi huv]
      congr 1
      have hh := meshRavelX_getD dx r u v (by omega) (by omega)
      rw [hrlen] at hh
      rw [hh, hr, arange_getD _ _ v hvr]
      congr 1
      push_cast
      ring
    · rw [hidx, offsetGrid_getD y _ _ hoffY i _ (by omega : i < y.length) huv]
      congr 1
      have hh := meshRavelY_getD dy r u v (by omega) (by omega)
      rw [hrlen] at hh
      rw [hh, hr, arange_getD _ _ u hur]
      congr 1
      push_cast
      ring
    · rw [hidx, npTile_getD z _ i _ (by omega) huv]
  · intro i hi
    refine ⟨?_, ?_, ?_⟩
    · rw [offsetGrid_block x _ _ hoffX i hi, sum_map_add_const, hoffX,
        meshRavelX_sum, hrsum]
      push_cast
      field_simp
    · rw [offsetGrid_block y _ _ hoffY i (by omega), sum_map_add_const, hoffY,
        meshRavelY_sum, hrsum]
      push_cast
      field_simp
    · rw [npTile_block z _ i (by omega), List.sum_replicate, nsmul_eq_mul]
      push_cast
      field_simp

/-- C3: for every odd positive resolution `ns`, strictly positive effective
area `(lx, ly)` and equal-length coordinate arrays, `point2grid` returns
flattened sequences of length `N·ns²` in which the block for center `i` is
contiguous and equals that center's coordinate plus the row-major local
offset grid with integer offsets `-⌊ns/2⌋ … ⌊ns/2⌋` scaled by `1e-6·lx/ns`
in x (fast index) and `1e-6·ly/ns` in y (slow index); `z` is replicated
without offset; and the mean of each per-center block equals that center's
coordinate exactly. -/
theorem point2grid_supersampling_grid (x y z : List ℚ) (lx ly : ℚ) (ns : ℤ)
    (hlx : 0 < lx) (hly : 0 < ly) (hxy : x.length = y.length)
    (hxz : x.length = z.length) (hodd : ns % 2 ≠ 0) (hpos : 0 < ns) :
    ∃ xg yg zg : List ℚ,
      point2grid x y (lx, ly) ns (some z) = .ok (xg, yg, some zg) ∧
      xg.length = x.length * ns.toNat ^ 2 ∧
      yg.length = x.length * ns.toNat ^ 2 ∧
      zg.length = x.length * ns.toNat ^ 2 ∧
      (∀ i < x.length, ∀ u < ns.toNat, ∀ v < ns.toNat,
        xg.getD (i * ns.toNat ^ 2 + u * ns.toNat + v) 0 =
          x.getD i 0 +
            (1/1000000) * lx / (ns : ℚ) * (((v : ℤ) - Int.fdiv ns 2 : ℤ) : ℚ) ∧
        yg.getD (i * ns.toNat ^ 2 + u * ns.toNat + v) 0 =
          y.getD i 0 +
            (1/1000000) * ly / (ns : ℚ) * (((u : ℤ) - Int.fdiv ns 2 : ℤ) : ℚ) ∧
        zg.getD (i * ns.toNat ^ 2 + u * ns.toNat + v) 0 = z.getD i 0) ∧
      (∀ i < x.length,
        ((xg.drop (i * ns.toNat ^ 2)).take (ns.toNat ^ 2)).sum / ((ns.toNat : ℚ) ^ 2) =
          x.getD i 0 ∧
        ((yg.drop (i * ns.toNat ^ 2)).take (ns.toNat ^ 2)).sum / ((ns.toNat : ℚ) ^ 2) =
          y.getD i 0 ∧
        ((zg.drop (i * ns.toNat ^ 2)).take (ns.toNat ^ 2)).sum / ((ns.toNat : ℚ) ^ 2) =
          z.getD i 0) :=
  point2grid_structure x y z lx ly ns hlx hly hxy hxz hodd hpos

/-- Witness for C3 at `x = [10]`, `y = [20]`, `z = [5]`,
`effective_area = (3, 3)`, `ns = 3`. -/
theorem point2grid_supersampling_grid_witness :
    (0 : ℚ) < 3 ∧ ([(10 : ℚ)]).length = ([(20 : ℚ)]).length ∧
    ([(10 : ℚ)]).length = ([(5 : ℚ)]).length ∧ (3 : ℤ) % 2 ≠ 0 ∧ (0 : ℤ) < 3 ∧
    ∃ xg yg zg : List ℚ,
      point2grid [10] [20] ((3 : ℚ), (3 : ℚ)) 3 (some [5]) = .ok (xg, yg, some zg) := by
  refine ⟨by decide, rfl, rfl, by decide, by decide, ?_⟩
  obtain ⟨xg, yg, zg, heq, -⟩ :=
    point2grid_supersampling_grid [10] [20] [5] 3 3 3 (by decide) (by decide)
      rfl rfl (by decide) (by decide)
  exact ⟨xg, yg, zg, heq⟩

/-- C5: any `point2grid` call with a non-positive effective-area dimension,
mismatched coordinate-array lengths, or an even `ns` fails with the
invalid-argument (assertion) condition; no grid is built.  In particular,
`effective_area = (0, 5)` is caught by the very first check, before the
offset-spacing division is reached. -/
theorem point2grid_rejects_invalid (x y : List ℚ) (z : Option (List ℚ))
    (lx ly : ℚ) (ns : ℤ)
    (hbad : ¬(0 < lx ∧ 0 < ly) ∨ x.length ≠ y.length ∨
      (∃ zv, z = some zv ∧ x.length ≠ zv.length) ∨ ns % 2 = 0) :
    ∃ msg, point2grid x y (lx, ly) ns z = .error (.assertionError msg) := by
  by_cases h1 : ¬((lx, ly).1 > 0 ∧ (lx, ly).2 > 0)
  · exact ⟨_, by rw [point2grid, if_pos h1]⟩
  by_cases h2 : ¬(x.length = y.length)
  · exact ⟨_, by rw [point2grid, if_neg h1, if_pos h2]⟩
  by_cases h3 : ¬(∀ zv ∈ z, x.length = zv.length)
  · exact ⟨_, by rw [point2grid, if_neg h1, if_neg h2, if_pos h3]⟩
  by_cases h4 : ¬(ns % 2 ≠ 0)
  · exact ⟨_, by rw [point2grid, if_neg h1, if_neg h2, if_neg h3, if_pos h4]⟩
  exfalso
  push_neg at h1 h2 h3 h4
  rcases hbad with hb | hb | ⟨zv, hzv, hb⟩ | hb
  · exact hb ⟨h1.1, h1.2⟩
  · exact hb h2
  · exact hb (h3 zv (by rw [hzv]; rfl))
  · exact h4 hb

/-- Witness for C5 at the spec's concrete invalid input
`effective_area = (0, 5)`. -/
theorem point2grid_rejects_invalid_witness :
    (¬((0 : ℚ) < 0 ∧ (0 : ℚ) < 5) ∨ ([(1 : ℚ)]).length ≠ ([(2 : ℚ)]).length ∨
      (∃ zv, (none : Option (List ℚ)) = some zv ∧ ([(1 : ℚ)]).length ≠ zv.length) ∨
      (3 : ℤ) % 2 = 0) ∧
    ∃ msg, point2grid [1] [2] ((0 : ℚ), (5 : ℚ)) 3 none =
      .error (.assertionError msg) :=
  ⟨Or.inl (by decide), point2grid_rejects_invalid [1] [2] none 0 5 3
    (Or.inl (by decide))⟩

/-- C10 (counterexample to the claim as stated): with `ns = -3` and the
otherwise valid empty coordinate arrays, every precondition check passes
and the call *succeeds*, returning the (empty) grids — it does not fail
during offset construction. -/
theorem point2grid_negative_ns_empty_ok :
    point2grid ([] : List ℚ) [] ((1 : ℚ), (1 : ℚ)) (-3) none = .ok ([], [], none) := by
  decide

/-- C10 (amended): for every negative odd `ns` and otherwise valid
arguments with a *nonempty* coordinate array, all precondition checks of
`point2grid` pass, yet the call fails during the offset loop with the
broadcast error — which is not the invalid-argument (assertion)
condition — and no grid is returned. -/
theorem point2grid_negative_ns_broadcast (x y : List ℚ) (z : Option (List ℚ))
    (lx ly : ℚ) (ns : ℤ) (hlx : 0 < lx) (hly : 0 < ly)
    (hxy : x.length = y.length) (hz : ∀ zv ∈ z, x.length = zv.length)
    (hodd : ns % 2 ≠ 0) (hneg : ns < 0) (hx : x ≠ []) :
    point2grid x y (lx, ly) ns z = .error .broadcastError := by
  have hns2 : Int.fdiv ns 2 ≤ -1 := by
    have hf : Int.fdiv ns 2 = ns / 2 := Int.fdiv_eq_ediv _ (by norm_num)
    have h1 := Int.ediv_add_emod ns 2
    have h2 : ns % 2 = 1 := by omega
    omega
  have hrempty : arange (-(Int.fdiv ns 2)) (Int.fdiv ns 2 + 1) = [] := by
    rw [arange]
    have : ((Int.fdiv ns 2 + 1) - -(Int.fdiv ns 2)).toNat = 0 := by omega
    rw [this]
    rfl
  have hQpos : (0 : ℕ) < (ns * ns).toNat := by
    have : (1 : ℤ) ≤ ns * ns := by nlinarith
    omega
  have hoffX : meshRavelX ((1/1000000) * lx / (ns : ℚ))
      (arange (-(Int.fdiv ns 2)) (Int.fdiv ns 2 + 1)) = [] := by
    rw [hrempty, meshRavelX]
    rfl
  rw [point2grid]
  rw [if_neg (by push_neg; exact ⟨hlx, hly⟩)]
  rw [if_neg (by push_neg; exact hxy)]
  rw [if_neg (by push_neg; exact hz)]
  rw [if_neg (by push_neg; intro h; omega)]
  have hob : offsetBlocks x ((ns * ns).toNat)
      (meshRavelX ((1/1000000) * lx / (ns : ℚ))
        (arange (-(Int.fdiv ns 2)) (Int.fdiv ns 2 + 1))) = .error .broadcastError := by
    rw [offsetBlocks, if_neg hx, hoffX]
    rw [if_neg (by simpa using hQpos.ne), if_neg (by simp)]
  simp only [hob, Bind.bind, Except.bind]

/-- Witness for the amended C10 at `x = y = [0]`, `ns = -3`. -/
theorem point2grid_negative_ns_broadcast_witness :
    ((0 : ℚ) < 1 ∧ ([(0 : ℚ)]).length = ([(0 : ℚ)]).length ∧ (-3 : ℤ) % 2 ≠ 0 ∧
      (-3 : ℤ) < 0 ∧ ([(0 : ℚ)]) ≠ []) ∧
    point2grid [0] [0] ((1 : ℚ), (1 : ℚ)) (-3) none = .error .broadcastError :=
  ⟨⟨by decide, rfl, by decide, by decide, by decide⟩,
    point2grid_negative_ns_broadcast [0] [0] none 1 1 (-3) (by decide) (by decide)
      rfl (by simp) (by decide) (by decide) (by decide)⟩

/-! Lemmas about the column-writing loop of `sensitivity`. -/

theorem setCol_ne (G : ℕ → ℕ → ℚ) (c : ℕ) (v : List ℚ) (n j : ℕ) (h : j ≠ c) :
    setCol G c v n j = G n j := by
  rw [setCol]
  exact if_neg (fun hc => h hc.1)

theorem setCol_eq (G : ℕ → ℕ → ℚ) (c : ℕ) (v : List ℚ) (n : ℕ)
    (hn : n < v.length) : setCol G c v n c = v.getD n 0 := by
  rw [setCol]
  exact if_pos ⟨rfl, hn⟩

theorem setCol_out (G : ℕ → ℕ → ℚ) (c : ℕ) (v : List ℚ) (n j : ℕ)
    (h : ¬(j = c ∧ n < v.length)) : setCol G c v n j = G n j := by
  rw [setCol]
  exact if_neg h

theorem sensWrite_zero (col : ℕ → ℕ → List ℚ) (G0 : ℕ → ℕ → ℚ) :
    sensWrite col 0 G0 = G0 := rfl

theorem sensWrite_succ (col : ℕ → ℕ → List ℚ) (P : ℕ) (G0 : ℕ → ℕ → ℚ) :
    sensWrite col (P + 1) G0 =
      setCol (setCol (setCol (sensWrite col P G0) (3 * P) (col P 0))
        (3 * P + 1) (col P 1)) (3 * P + 2) (col P 2) := by
  rw [sensWrite, sensWrite, List.range_succ, List.foldl_append, List.foldl_cons,
    List.foldl_nil]

/-- An entry in column `3i + s` (for `i < P`, `s < 3`) of the written
matrix is the corresponding entry of the column list of prism `i`: later
prisms write to disjoint columns and never disturb it. -/
theorem sensWrite_entry (col : ℕ → ℕ → List ℚ) (P : ℕ) (G0 : ℕ → ℕ → ℚ)
    (i s n : ℕ) (hi : i < P) (hs : s < 3) (hn : n < (col i s).length) :
    sensWrite col P G0 n (3 * i + s) = (col i s).getD n 0 := by
  induction P with
  | zero => omega
  | succ P ih =>
    rw [sensWrite_succ]
    by_cases hip : i = P
    · subst hip
      match s, hs with
      | 0, _ =>
        rw [setCol_ne _ _ _ _ _ (by omega), setCol_ne _ _ _ _ _ (by omega)]
        exact setCol_eq _ _ _ _ hn
      | 1, _ =>
        rw [setCol_ne _ _ _ _ _ (by omega)]
        exact setCol_eq _ _ _ _ hn
      | 2, _ =>
        exact setCol_eq _ _ _ _ hn
    · rw [setCol_ne _ _ _ _ _ (by omega), setCol_ne _ _ _ _ _ (by omega),
        setCol_ne _ _ _ _ _ (by omega)]
      exact ih (by omega)

/-- Entries outside every written column slot keep the uninitialized
content. -/
theorem sensWrite_out (col : ℕ → ℕ → List ℚ) (P : ℕ) (G0 : ℕ → ℕ → ℚ)
    (n j : ℕ) (h : ∀ i < P, ∀ s < 3, ¬(j = 3 * i + s ∧ n < (col i s).length)) :
    sensWrite col P G0 n j = G0 n j := by
  induction P with
  | zero => rfl
  | succ P ih =>
    rw [sensWrite_succ]
    rw [setCol_out _ _ _ _ _ (h P (by omega) 2 (by omega)),
      setCol_out _ _ _ _ _ (h P (by omega) 1 (by omega)),
      setCol_out _ (3 * P) _ _ _ (h P (by omega) 0 (by omega))]
    exact ih (fun i hi s hs => h i (by omega) s hs)

/-! Reduction lemmas for `sensitivity` in each mode. -/

theorem sensCols_02 {σ γ : Type} (K : Kernels σ γ) (alpha : ℤ)
    (h : alpha = 0 ∨ alpha = 2) :
    sensCols K alpha = some (K.kernelxz, K.kernelyz, K.kernelzz) := by
  rw [sensCols, if_pos h]

theorem sensCols_13 {σ γ : Type} (K : Kernels σ γ) (alpha : ℤ)
    (h : alpha = 1 ∨ alpha = 3) :
    sensCols K alpha = some (K.kernelxy, K.kernelyy, K.kernelyz) := by
  rw [sensCols, if_neg (by omega), if_pos h]

theorem sensCols_invalid {σ γ : Type} (K : Kernels σ γ) (alpha : ℤ)
    (h : ¬(alpha = 0 ∨ alpha = 1 ∨ alpha = 2 ∨ alpha = 3)) :
    sensCols K alpha = none := by
  rw [sensCols, if_neg (by omega), if_neg (by omega)]

theorem sensitivity_none_eq {σ γ : Type} [Inhabited σ] (K : Kernels σ γ)
    (P : ℕ) (x y z : List ℚ) (model : List σ) (alpha : ℤ) (G0 : ℕ → ℕ → ℚ)
    (k1 k2 k3 : ℚ → ℚ → ℚ → σ → ℚ)
    (hcols : sensCols K alpha = some (k1, k2, k3)) (hm : ¬ model.length < P) :
    sensitivity K P x y z model alpha none G0 =
      .ok (fun n j => CM * T2NT * sensWrite (fun i s =>
        kernelMap (fun a b c =>
          (if s = 0 then k1 else if s = 1 then k2 else k3) a b c
            (model.getD i default)) x y z) P G0 n j) := by
  simp only [sensitivity, hcols]
  rw [if_neg hm]

theorem sensitivity_some_eq {σ γ : Type} [Inhabited σ] (K : Kernels σ γ)
    (P : ℕ) (x y z : List ℚ) (model : List σ) (alpha : ℤ) (ea : ℚ × ℚ)
    (G0 : ℕ → ℕ → ℚ) (xg yg zg : List ℚ)
    (hpg : point2grid x y ea 7 (some z) = .ok (xg, yg, some zg))
    (k1 k2 k3 : ℚ → ℚ → ℚ → σ → ℚ)
    (hcols : sensCols K alpha = some (k1, k2, k3)) (hm : ¬ model.length < P) :
    sensitivity K P x y z model alpha (some ea) G0 =
      .ok (fun n j => CM * T2NT * sensWrite (fun i s =>
        meanBlocks (kernelMap (fun a b c =>
          (if s = 0 then k1 else if s = 1 then k2 else k3) a b c
            (model.getD i default)) xg yg zg) x.length 49) P G0 n j) := by
  simp only [sensitivity, hpg, Bind.bind, Except.bind, hcols]
  rw [if_neg hm]

theorem sensitivity_none_invalid {σ γ : Type} [Inhabited σ] (K : Kernels σ γ)
    (P : ℕ) (x y z : List ℚ) (model : List σ) (alpha : ℤ) (G0 : ℕ → ℕ → ℚ)
    (hcols : sensCols K alpha = none) :
    sensitivity K P x y z model alpha none G0 =
      .ok (fun n j => CM * T2NT * G0 n j) := by
  simp only [sensitivity, hcols]

theorem sensitivity_some_invalid {σ γ : Type} [Inhabited σ] (K : Kernels σ γ)
    (P : ℕ) (x y z : List ℚ) (model : List σ) (alpha : ℤ) (ea : ℚ × ℚ)
    (G0 : ℕ → ℕ → ℚ) (xg yg zg : List ℚ)
    (hpg : point2grid x y ea 7 (some z) = .ok (xg, yg, some zg))
    (hcols : sensCols K alpha = none) :
    sensitivity K P x y z model alpha (some ea) G0 =
      .ok (fun n j => CM * T2NT * G0 n j) := by
  simp only [sensitivity, hpg, Bind.bind, Except.bind, hcols]

/-- C1: for every valid plane index, `P ≥ 1`, prism model of length `P` and
sensor coordinates, `sensitivity` succeeds and produces the `N × 3P`
Jacobian: prism `i` occupies columns `3i, 3i+1, 3i+2`; planes 0 and 2 fill
the block from the `kernelxz`, `kernelyz`, `kernelzz` kernels and planes 1
and 3 from `kernelxy`, `kernelyy`, `kernelyz` (per-sensor 49-subsample
means when an effective area is supplied); every entry — including the
untouched storage outside the `N × 3P` region — carries the `CM * T2NT`
factor. -/
theorem sensitivity_jacobian_structure {σ γ : Type} [Inhabited σ]
    (K : Kernels σ γ) (P : ℕ) (x y z : List ℚ) (model : List σ) (alpha : ℤ)
    (ea? : Option (ℚ × ℚ)) (G0 : ℕ → ℕ → ℚ)
    (halpha : alpha = 0 ∨ alpha = 1 ∨ alpha = 2 ∨ alpha = 3)
    (hP : 1 ≤ P) (hm : model.length = P)
    (hy : y.length = x.length) (hz : z.length = x.length)
    (hea : ∀ ea ∈ ea?, 0 < ea.1 ∧ 0 < ea.2) :
    ∃ G, sensitivity K P x y z model alpha ea? G0 = .ok G ∧
      (∀ n j, 3 * P ≤ j → G n j = CM * T2NT * G0 n j) ∧
      (∀ n, x.length ≤ n → ∀ j, G n j = CM * T2NT * G0 n j) ∧
      (∀ n, n < x.length → ∀ i, i < P → ∀ s, s < 3 →
        (ea? = none →
          G n (3 * i + s) = CM * T2NT *
            (if alpha = 0 ∨ alpha = 2 then
               (if s = 0 then K.kernelxz else if s = 1 then K.kernelyz
                else K.kernelzz)
             else
               (if s = 0 then K.kernelxy else if s = 1 then K.kernelyy
                else K.kernelyz))
              (x.getD n 0) (y.getD n 0) (z.getD n 0) (model.getD i default)) ∧
        (∀ lx ly, ea? = some (lx, ly) →
          ∀ xg yg zg, point2grid x y (lx, ly) 7 (some z) = .ok (xg, yg, some zg) →
          G n (3 * i + s) = CM * T2NT *
            (meanBlocks (kernelMap (fun a b c =>
              (if alpha = 0 ∨ alpha = 2 then
                 (if s = 0 then K.kernelxz else if s = 1 then K.kernelyz
                  else K.kernelzz)
               else
                 (if s = 0 then K.kernelxy else if s = 1 then K.kernelyy
                  else K.kernelyz))
                a b c (model.getD i default)) xg yg zg) x.length 49).getD n 0)) := by
  have hm' : ¬ model.length < P := by omega
  rcases ea? with _ | ⟨lx, ly⟩
  · -- no averaging
    by_cases h02 : alpha = 0 ∨ alpha = 2
    · rw [sensitivity_none_eq K P x y z model alpha G0 _ _ _ (sensCols_02 K alpha h02) hm']
      refine ⟨_, rfl, ?_, ?_, ?_⟩
      · intro n j hj
        congr 1
        exact sensWrite_out _ _ _ _ _ (fun i hi s hs h => by omega)
      · intro n hn j
        congr 1
        refine sensWrite_out _ _ _ _ _ (fun i hi s hs h => ?_)
        rw [kernelMap_length _ _ _ _ hy hz] at h
        omega
      · intro n hn i hi s hs
        constructor
        · intro _
          rw [sensWrite_entry _ _ _ i s n hi hs
            (by rw [kernelMap_length _ _ _ _ hy hz]; exact hn)]
          rw [kernelMap_getD _ _ _ _ n hn hy hz, if_pos h02]
        · intro lx ly hbad
          exact absurd hbad (by simp)
    · have h13 : alpha = 1 ∨ alpha = 3 := by omega
      rw [sensitivity_none_eq K P x y z model alpha G0 _ _ _ (sensCols_13 K alpha h13) hm']
      refine ⟨_, rfl, ?_, ?_, ?_⟩
      · intro n j hj
        congr 1
        exact sensWrite_out _ _ _ _ _ (fun i hi s hs h => by omega)
      · intro n hn j
        congr 1
        refine sensWrite_out _ _ _ _ _ (fun i hi s hs h => ?_)
        rw [kernelMap_length _ _ _ _ hy hz] at h
        omega
      · intro n hn i hi s hs
        constructor
        · intro _
          rw [sensWrite_entry _ _ _ i s n hi hs
            (by rw [kernelMap_length _ _ _ _ hy hz]; exact hn)]
          rw [kernelMap_getD _ _ _ _ n hn hy hz, if_neg h02]
        · intro lx ly hbad
          exact absurd hbad (by simp)
  · -- averaging
    obtain ⟨hlx, hly⟩ := hea (lx, ly) rfl
    have hpg := point2grid_eq x y z lx ly 7 hlx hly hy.symm hz.symm
      (by decide) (by decide)
    by_cases h02 : alpha = 0 ∨ alpha = 2
    · rw [sensitivity_some_eq K P x y z model alpha (lx, ly) G0 _ _ _ hpg _ _ _
        (sensCols_02 K alpha h02) hm']
      refine ⟨_, rfl, ?_, ?_, ?_⟩
      · intro n j hj
        congr 1
        exact sensWrite_out _ _ _ _ _ (fun i hi s hs h => by omega)
      · intro n hn j
        congr 1
        refine sensWrite_out _ _ _ _ _ (fun i hi s hs h => ?_)
        rw [meanBlocks_length] at h
        omega
      · intro n hn i hi s hs
        constructor
        · intro hbad
          exact absurd hbad (by simp)
        · intro lx' ly' hsome xg yg zg hpg'
          obtain ⟨hlx', hly'⟩ : lx = lx' ∧ ly = ly' := by
            constructor <;> · injection hsome with h'; cases h'; rfl
          subst hlx'; subst hly'
          have hinj := hpg.symm.trans hpg'
          rw [Except.ok.injEq, Prod.mk.injEq, Prod.mk.injEq, Option.some.injEq] at hinj
          obtain ⟨exg, eyg, ezg⟩ := hinj
          subst exg; subst eyg; subst ezg
          rw [sensWrite_entry _ _ _ i s n hi hs (by rw [meanBlocks_length]; exact hn)]
          rw [if_pos h02]
    · have h13 : alpha = 1 ∨ alpha = 3 := by omega
      rw [sensitivity_some_eq K P x y z model alpha (lx, ly) G0 _ _ _ hpg _ _ _
        (sensCols_13 K alpha h13) hm']
      refine ⟨_, rfl, ?_, ?_, ?_⟩
      · intro n j hj
        congr 1
        exact sensWrite_out _ _ _ _ _ (fun i hi s hs h => by omega)
      · intro n hn j
        congr 1
        refine sensWrite_out _ _ _ _ _ (fun i hi s hs h => ?_)
        rw [meanBlocks_length] at h
        omega
      · intro n hn i hi s hs
        constructor
        · intro hbad
          exact absurd hbad (by simp)
        · intro lx' ly' hsome xg yg zg hpg'
          obtain ⟨hlx', hly'⟩ : lx = lx' ∧ ly = ly' := by
            constructor <;> · injection hsome with h'; cases h'; rfl
          subst hlx'; subst hly'
          have hinj := hpg.symm.trans hpg'
          rw [Except.ok.injEq, Prod.mk.injEq, Prod.mk.injEq, Option.some.injEq] at hinj
          obtain ⟨exg, eyg, ezg⟩ := hinj
          subst exg; subst eyg; subst ezg
          rw [sensWrite_entry _ _ _ i s n hi hs (by rw [meanBlocks_length]; exact hn)]
          rw [if_neg h02]


/-- Witness for C1 at `P = 1`, one sensor, plane 0, no averaging. -/
theorem sensitivity_jacobian_structure_witness :
    ((0 : ℤ) = 0 ∨ (0 : ℤ) = 1 ∨ (0 : ℤ) = 2 ∨ (0 : ℤ) = 3) ∧ 1 ≤ 1 ∧
    ([()] : List Unit).length = 1 ∧
    ([(0 : ℚ)]).length = ([(0 : ℚ)]).length ∧
    ([(1 : ℚ)]).length = ([(0 : ℚ)]).length ∧
    (∀ ea ∈ (none : Option (ℚ × ℚ)), 0 < ea.1 ∧ 0 < ea.2) ∧
    ∃ G, sensitivity unitKernels 1 [0] [0] [1] [()] 0 none (fun _ _ => 1) =
      .ok G := by
  refine ⟨Or.inl rfl, le_refl 1, rfl, rfl, rfl, by simp, ?_⟩
  obtain ⟨G, hG, -⟩ := sensitivity_jacobian_structure unitKernels 1 [0] [0] [1]
    [()] 0 none (fun _ _ => 1) (Or.inl rfl) (le_refl 1) rfl rfl rfl (by simp)
  exact ⟨G, hG⟩


theorem sensitivity_entries_colValue {σ γ : Type} [Inhabited σ]
    (K : Kernels σ γ) (P : ℕ) (x y z : List ℚ) (model : List σ) (alpha : ℤ)
    (ea? : Option (ℚ × ℚ)) (G0 : ℕ → ℕ → ℚ) (k1 k2 k3 : ℚ → ℚ → ℚ → σ → ℚ)
    (hcols : sensCols K alpha = some (k1, k2, k3)) (hm : ¬ model.length < P)
    (hy : y.length = x.length) (hz : z.length = x.length)
    (hea : ∀ ea ∈ ea?, 0 < ea.1 ∧ 0 < ea.2) :
    ∃ G, sensitivity K P x y z model alpha ea? G0 = .ok G ∧
      ∀ n, n < x.length → ∀ i, i < P → ∀ s, s < 3 →
        G n (3 * i + s) = CM * T2NT *
          sensColValue (if s = 0 then k1 else if s = 1 then k2 else k3)
            x y z ea? (model.getD i default) n := by
  rcases ea? with _ | ⟨lx, ly⟩
  · rw [sensitivity_none_eq K P x y z model alpha G0 _ _ _ hcols hm]
    refine ⟨_, rfl, ?_⟩
    intro n hn i hi s hs
    rw [sensWrite_entry _ _ _ i s n hi hs
      (by rw [kernelMap_length _ _ _ _ hy hz]; exact hn)]
    rw [kernelMap_getD _ _ _ _ n hn hy hz]
    rfl
  · obtain ⟨hlx, hly⟩ := hea (lx, ly) rfl
    have hpg := point2grid_eq x y z lx ly 7 hlx hly hy.symm hz.symm
      (by decide) (by decide)
    rw [sensitivity_some_eq K P x y z model alpha (lx, ly) G0 _ _ _ hpg _ _ _
      hcols hm]
    refine ⟨_, rfl, ?_⟩
    intro n hn i hi s hs
    rw [sensWrite_entry _ _ _ i s n hi hs (by rw [meanBlocks_length]; exact hn)]
    rw [sensColValue, hpg]

/-- C9: two prism models that agree on prism `i` (but may differ anywhere
else) give Jacobians whose column block `i` is numerically identical, in
both averaged and non-averaged modes and even with different uninitialized
storage: block `i` depends only on prism `i` and the sensor data. -/
theorem sensitivity_block_locality {σ γ : Type} [Inhabited σ]
    (K : Kernels σ γ) (P : ℕ) (x y z : List ℚ) (m1 m2 : List σ) (alpha : ℤ)
    (ea? : Option (ℚ × ℚ)) (G0 G0' : ℕ → ℕ → ℚ)
    (halpha : alpha = 0 ∨ alpha = 1 ∨ alpha = 2 ∨ alpha = 3)
    (hm1 : m1.length = P) (hm2 : m2.length = P)
    (hy : y.length = x.length) (hz : z.length = x.length)
    (hea : ∀ ea ∈ ea?, 0 < ea.1 ∧ 0 < ea.2)
    (i : ℕ) (hi : i < P) (hagree : m1.getD i default = m2.getD i default) :
    ∀ G1 G2, sensitivity K P x y z m1 alpha ea? G0 = .ok G1 →
      sensitivity K P x y z m2 alpha ea? G0' = .ok G2 →
      ∀ n, n < x.length → ∀ s, s < 3 → G1 n (3 * i + s) = G2 n (3 * i + s) := by
  have hcols : ∃ k1 k2 k3, sensCols K alpha = some (k1, k2, k3) := by
    by_cases h02 : alpha = 0 ∨ alpha = 2
    · exact ⟨_, _, _, sensCols_02 K alpha h02⟩
    · exact ⟨_, _, _, sensCols_13 K alpha (by omega)⟩
  obtain ⟨k1, k2, k3, hc⟩ := hcols
  obtain ⟨Ga, hGa, hea1⟩ := sensitivity_entries_colValue K P x y z m1 alpha ea?
    G0 k1 k2 k3 hc (by omega) hy hz hea
  obtain ⟨Gb, hGb, hea2⟩ := sensitivity_entries_colValue K P x y z m2 alpha ea?
    G0' k1 k2 k3 hc (by omega) hy hz hea
  intro G1 G2 h1 h2 n hn s hs
  have e1 : Ga = G1 := by
    have := hGa.symm.trans h1
    rwa [Except.ok.injEq] at this
  have e2 : Gb = G2 := by
    have := hGb.symm.trans h2
    rwa [Except.ok.injEq] at this
  subst e1; subst e2
  rw [hea1 n hn i hi s hs, hea2 n hn i hi s hs, hagree]


/-- Witness for C9: two 2-prism models that agree on prism 0 and differ on
prism 1. -/
theorem sensitivity_block_locality_witness :
    (((0 : ℤ) = 0 ∨ (0 : ℤ) = 1 ∨ (0 : ℤ) = 2 ∨ (0 : ℤ) = 3) ∧
      ([true, false] : List Bool).length = 2 ∧
      ([true, true] : List Bool).length = 2 ∧
      ([(0 : ℚ)]).length = ([(0 : ℚ)]).length ∧
      ([(1 : ℚ)]).length = ([(0 : ℚ)]).length ∧
      (∀ ea ∈ (none : Option (ℚ × ℚ)), 0 < ea.1 ∧ 0 < ea.2) ∧ 0 < 2 ∧
      ([true, false] : List Bool).getD 0 default =
        ([true, true] : List Bool).getD 0 default) ∧
    (∀ G1 G2,
      sensitivity boolKernels 2 [0] [0] [1] [true, false] 0 none
        (fun _ _ => 1) = .ok G1 →
      sensitivity boolKernels 2 [0] [0] [1] [true, true] 0 none
        (fun _ _ => 2) = .ok G2 →
      ∀ n, n < ([(0 : ℚ)]).length → ∀ s, s < 3 →
        G1 n (3 * 0 + s) = G2 n (3 * 0 + s)) := by
  refine ⟨⟨Or.inl rfl, rfl, rfl, rfl, rfl, by simp, by decide, rfl⟩, ?_⟩
  exact sensitivity_block_locality boolKernels 2 [0] [0] [1] [true, false]
    [true, true] 0 none (fun _ _ => 1) (fun _ _ => 2) (Or.inl rfl) rfl rfl rfl
    rfl (by simp) 0 (by decide) rfl

/-! Reduction lemmas for `magnetic_data` and the supersampling identity. -/

theorem magnetic_data_none_eq {σ γ : Type} (K : Kernels σ γ) (x y z : List ℚ)
    (model : List σ) (alpha : ℤ) (grains : Option (List γ))
    (halpha : alpha = 0 ∨ alpha = 1 ∨ alpha = 2 ∨ alpha = 3) :
    magnetic_data K x y z model alpha none grains =
      .ok (match grains with
        | some gr => List.zipWith (· + ·)
            (if alpha = 0 ∨ alpha = 2 then fieldList K.prism_bz x y z model
             else fieldList K.prism_by x y z model)
            (if alpha = 0 ∨ alpha = 2 then fieldList K.sphere_bz x y z gr
             else fieldList K.sphere_by x y z gr)
        | none =>
            if alpha = 0 ∨ alpha = 2 then fieldList K.prism_bz x y z model
            else fieldList K.prism_by x y z model) := by
  rw [magnetic_data, if_neg (not_not_intro halpha)]
  cases grains <;> rfl

theorem magnetic_data_some_eq {σ γ : Type} (K : Kernels σ γ) (x y z : List ℚ)
    (model : List σ) (alpha : ℤ) (ea : ℚ × ℚ) (grains : Option (List γ))
    (xg yg zg : List ℚ)
    (halpha : alpha = 0 ∨ alpha = 1 ∨ alpha = 2 ∨ alpha = 3)
    (hpg : point2grid x y ea 7 (some z) = .ok (xg, yg, some zg)) :
    magnetic_data K x y z model alpha (some ea) grains =
      .ok (match grains with
        | some gr => List.zipWith (· + ·)
            (if alpha = 0 ∨ alpha = 2 then
               meanBlocks (fieldList K.prism_bz xg yg zg model) x.length 49
             else meanBlocks (fieldList K.prism_by xg yg zg model) x.length 49)
            (if alpha = 0 ∨ alpha = 2 then
               meanBlocks (fieldList K.sphere_bz xg yg zg gr) x.length 49
             else meanBlocks (fieldList K.sphere_by xg yg zg gr) x.length 49)
        | none =>
            if alpha = 0 ∨ alpha = 2 then
              meanBlocks (fieldList K.prism_bz xg yg zg model) x.length 49
            else meanBlocks (fieldList K.prism_by xg yg zg model) x.length 49) := by
  rw [magnetic_data, if_neg (not_not_intro halpha)]
  simp only [hpg, Bind.bind, Except.bind]
  cases grains <;> rfl

theorem averagedData_eq {σ γ : Type} (K : Kernels σ γ) (x y z : List ℚ)
    (model : List σ) (alpha : ℤ) (ea : ℚ × ℚ) (grains : Option (List γ))
    (ns : ℤ) (xg yg zg : List ℚ)
    (hpg : point2grid x y ea ns (some z) = .ok (xg, yg, some zg)) :
    averagedData K x y z model alpha ea grains ns =
      .ok (match grains with
        | some gr => List.zipWith (· + ·)
            (if alpha = 0 ∨ alpha = 2 then
               meanBlocks (fieldList K.prism_bz xg yg zg model) x.length
                 (ns * ns).toNat
             else meanBlocks (fieldList K.prism_by xg yg zg model) x.length
                 (ns * ns).toNat)
            (if alpha = 0 ∨ alpha = 2 then
               meanBlocks (fieldList K.sphere_bz xg yg zg gr) x.length
                 (ns * ns).toNat
             else meanBlocks (fieldList K.sphere_by xg yg zg gr) x.length
                 (ns * ns).toNat)
        | none =>
            if alpha = 0 ∨ alpha = 2 then
              meanBlocks (fieldList K.prism_bz xg yg zg model) x.length
                (ns * ns).toNat
            else meanBlocks (fieldList K.prism_by xg yg zg model) x.length
              (ns * ns).toNat) := by
  rw [averagedData]
  simp only [hpg, Bind.bind, Except.bind]
  cases grains <;> rfl

/-- With an effective area, `magnetic_data` is exactly the generalized
averaging procedure at the hard-coded `ns = 7`. -/
theorem magnetic_data_eq_averagedData7 {σ γ : Type} (K : Kernels σ γ)
    (x y z : List ℚ) (model : List σ) (alpha : ℤ) (ea : ℚ × ℚ)
    (grains : Option (List γ))
    (halpha : alpha = 0 ∨ alpha = 1 ∨ alpha = 2 ∨ alpha = 3) :
    magnetic_data K x y z model alpha (some ea) grains =
      averagedData K x y z model alpha ea grains 7 := by
  rw [magnetic_data, if_neg (not_not_intro halpha), averagedData]
  rfl

/-- The supersampling grid at `ns = 1` is the sensor centers themselves. -/
theorem point2grid_ns1 (x y z : List ℚ) (lx ly : ℚ) (hlx : 0 < lx)
    (hly : 0 < ly) (hxy : x.length = y.length) (hxz : x.length = z.length) :
    point2grid x y (lx, ly) 1 (some z) = .ok (x, y, some z) := by
  rw [point2grid_eq x y z lx ly 1 hlx hly hxy hxz (by decide) (by decide)]
  have hr : arange (-(Int.fdiv 1 2)) (Int.fdiv 1 2 + 1) = [0] := by decide
  have hmx : meshRavelX ((1/1000000) * lx / ((1 : ℤ) : ℚ)) [0] = [0] := by
    simp [meshRavelX]
  have hmy : meshRavelY ((1/1000000) * ly / ((1 : ℤ) : ℚ)) [0] = [0] := by
    simp [meshRavelY]
  rw [hr, hmx, hmy]
  have hQ1 : ((1 : ℤ) * 1).toNat = 1 := by decide
  rw [hQ1]
  congr 1
  refine Prod.ext ?_ (Prod.ext ?_ ?_) <;> simp [npTile, List.replicate]

theorem meanBlocks_one (v : List ℚ) (N : ℕ) (h : v.length = N) :
    meanBlocks v N 1 = v := by
  apply List.ext_getElem
  · rw [meanBlocks_length, h]
  · intro i h1 h2
    rw [meanBlocks_length] at h1
    simp only [meanBlocks, List.getElem_map, List.getElem_range]
    have hb := block_list_eq v (i * 1) 1 (by omega)
    rw [hb]
    have hrg : List.range 1 = [0] := rfl
    rw [hrg]
    simp only [List.map_cons, List.map_nil, List.sum_cons, List.sum_nil]
    rw [List.getD_eq_getElem _ _ (by omega)]
    have hgi : i * 1 + 0 = i := by omega
    simp only [hgi]
    push_cast
    rw [add_zero, div_one]

theorem fieldList_length {σ : Type} (k : ℚ → ℚ → ℚ → σ → ℚ)
    (xs ys zs : List ℚ) (model : List σ) (hy : ys.length = xs.length)
    (hz : zs.length = xs.length) :
    (fieldList k xs ys zs model).length = xs.length :=
  kernelMap_length _ _ _ _ hy hz

/-- C7: at supersampling resolution `ns = 1` the footprint-averaging
procedure of `magnetic_data` collapses to direct evaluation: the single
subsample produced by `point2grid` is the sensor center itself, and the
mean over each one-element block is the value at that center, so the
averaging branch evaluated with `ns = 1` equals `magnetic_data` without an
effective area, for every plane and with or without grains. -/
theorem averaging_identity_ns1 {σ γ : Type} (K : Kernels σ γ)
    (x y z : List ℚ) (model : List σ) (alpha : ℤ) (lx ly : ℚ)
    (grains : Option (List γ))
    (halpha : alpha = 0 ∨ alpha = 1 ∨ alpha = 2 ∨ alpha = 3)
    (hlx : 0 < lx) (hly : 0 < ly) (hy : y.length = x.length)
    (hz : z.length = x.length) :
    averagedData K x y z model alpha (lx, ly) grains 1 =
      magnetic_data K x y z model alpha none grains := by
  rw [averagedData_eq K x y z model alpha (lx, ly) grains 1 x y z
    (point2grid_ns1 x y z lx ly hlx hly hy.symm hz.symm)]
  rw [magnetic_data_none_eq K x y z model alpha grains halpha]
  have hQ : ((1 : ℤ) * 1).toNat = 1 := by decide
  congr 1
  cases grains with
  | none =>
    by_cases h02 : alpha = 0 ∨ alpha = 2
    · simp only [hQ, if_pos h02, meanBlocks_one, fieldList_length, hy, hz]
    · simp only [hQ, if_neg h02, meanBlocks_one, fieldList_length, hy, hz]
  | some gr =>
    by_cases h02 : alpha = 0 ∨ alpha = 2
    · simp only [hQ, if_pos h02, meanBlocks_one, fieldList_length, hy, hz]
    · simp only [hQ, if_neg h02, meanBlocks_one, fieldList_length, hy, hz]

/-- Witness for C7 at plane 0, one sensor, one prism, no grains. -/
theorem averaging_identity_ns1_witness :
    (((0 : ℤ) = 0 ∨ (0 : ℤ) = 1 ∨ (0 : ℤ) = 2 ∨ (0 : ℤ) = 3) ∧ (0 : ℚ) < 1 ∧
      ([(3 : ℚ)]).length = ([(2 : ℚ)]).length ∧
      ([(4 : ℚ)]).length = ([(2 : ℚ)]).length) ∧
    averagedData unitKernels [2] [3] [4] [()] 0 ((1 : ℚ), (1 : ℚ)) none 1 =
      magnetic_data unitKernels [2] [3] [4] [()] 0 none none :=
  ⟨⟨Or.inl rfl, by decide, rfl, rfl⟩,
    averaging_identity_ns1 unitKernels [2] [3] [4] [()] 0 1 1 none (Or.inl rfl)
      (by decide) (by decide) rfl rfl⟩

/-! Linearity lemmas. -/

theorem fieldList_append {σ : Type} (k : ℚ → ℚ → ℚ → σ → ℚ)
    (xs ys zs : List ℚ) (m1 m2 : List σ) :
    fieldList k xs ys zs (m1 ++ m2) =
      List.zipWith (· + ·) (fieldList k xs ys zs m1)
        (fieldList k xs ys zs m2) := by
  rw [fieldList, fieldList, fieldList, ← kernelMap_add]
  have hf : (fun a b c => (((m1 ++ m2).map (k a b c)).sum)) =
      fun a b c => (m1.map (k a b c)).sum + (m2.map (k a b c)).sum := by
    funext a b c
    rw [List.map_append, List.sum_append]
  rw [hf]

theorem meanBlocks_add (u v : List ℚ) (N Q : ℕ) (h : u.length = v.length) :
    meanBlocks (List.zipWith (· + ·) u v) N Q =
      List.zipWith (· + ·) (meanBlocks u N Q) (meanBlocks v N Q) := by
  apply List.ext_getElem
  · rw [meanBlocks_length, List.length_zipWith, meanBlocks_length,
      meanBlocks_length]
    omega
  · intro i h1 h2
    rw [List.getElem_zipWith]
    simp only [meanBlocks, List.getElem_map, List.getElem_range]
    rw [List.drop_zipWith, List.take_zipWith]
    rw [sum_zipWith_add _ _ (by
      rw [List.length_take, List.length_take, List.length_drop,
        List.length_drop, h])]
    rw [add_div]

/-- C8: `magnetic_data` is linear in the source model.  Evaluating the
two-prism model `[p1, p2]` gives the elementwise sum of evaluating `[p1]`
and `[p2]` alone, in both the direct and the footprint-averaged mode; and
supplying grains adds their sphere-kernel field (direct or 49-subsample
averaged, by mode) elementwise to the prism field. -/
theorem magnetic_data_superposition {σ γ : Type} (K : Kernels σ γ)
    (x y z : List ℚ) (p1 p2 : σ) (model : List σ) (gr : List γ) (alpha : ℤ)
    (ea? : Option (ℚ × ℚ))
    (halpha : alpha = 0 ∨ alpha = 1 ∨ alpha = 2 ∨ alpha = 3)
    (hy : y.length = x.length) (hz : z.length = x.length)
    (hea : ∀ ea ∈ ea?, 0 < ea.1 ∧ 0 < ea.2) :
    (∃ B12 B1 B2,
      magnetic_data K x y z [p1, p2] alpha ea? none = .ok B12 ∧
      magnetic_data K x y z [p1] alpha ea? none = .ok B1 ∧
      magnetic_data K x y z [p2] alpha ea? none = .ok B2 ∧
      B12 = List.zipWith (· + ·) B1 B2) ∧
    (∃ Bg B0,
      magnetic_data K x y z model alpha ea? (some gr) = .ok Bg ∧
      magnetic_data K x y z model alpha ea? none = .ok B0 ∧
      (ea? = none →
        Bg = List.zipWith (· + ·) B0
          (if alpha = 0 ∨ alpha = 2 then fieldList K.sphere_bz x y z gr
           else fieldList K.sphere_by x y z gr)) ∧
      (∀ lx ly, ea? = some (lx, ly) →
        ∀ xg yg zg,
          point2grid x y (lx, ly) 7 (some z) = .ok (xg, yg, some zg) →
          Bg = List.zipWith (· + ·) B0
            (if alpha = 0 ∨ alpha = 2 then
               meanBlocks (fieldList K.sphere_bz xg yg zg gr) x.length 49
             else meanBlocks (fieldList K.sphere_by xg yg zg gr) x.length 49))) := by
  rcases ea? with _ | ⟨lx, ly⟩
  · constructor
    · refine ⟨_, _, _, magnetic_data_none_eq K x y z [p1, p2] alpha none halpha,
        magnetic_data_none_eq K x y z [p1] alpha none halpha,
        magnetic_data_none_eq K x y z [p2] alpha none halpha, ?_⟩
      have hsplit : [p1, p2] = [p1] ++ [p2] := rfl
      by_cases h02 : alpha = 0 ∨ alpha = 2
      · simp only [if_pos h02, hsplit, fieldList_append]
      · simp only [if_neg h02, hsplit, fieldList_append]
    · refine ⟨_, _, magnetic_data_none_eq K x y z model alpha (some gr) halpha,
        magnetic_data_none_eq K x y z model alpha none halpha, fun _ => rfl,
        fun lx ly hbad => absurd hbad (by simp)⟩
  · obtain ⟨hlx, hly⟩ := hea (lx, ly) rfl
    have hpg := point2grid_eq x y z lx ly 7 hlx hly hy.symm hz.symm
      (by decide) (by decide)
    have hr7 : (arange (-(Int.fdiv 7 2)) (Int.fdiv 7 2 + 1)).length = 7 := by
      rw [arange_length]
      decide
    constructor
    · refine ⟨_, _, _,
        magnetic_data_some_eq K x y z [p1, p2] alpha (lx, ly) none _ _ _ halpha hpg,
        magnetic_data_some_eq K x y z [p1] alpha (lx, ly) none _ _ _ halpha hpg,
        magnetic_data_some_eq K x y z [p2] alpha (lx, ly) none _ _ _ halpha hpg, ?_⟩
      have hsplit : [p1, p2] = [p1] ++ [p2] := rfl
      have hylen : (y.flatMap (fun yi =>
          (meshRavelY ((1/1000000) * ly / ((7 : ℤ) : ℚ))
            (arange (-(Int.fdiv 7 2)) (Int.fdiv 7 2 + 1))).map
            (fun o => yi + o))).length =
          (x.flatMap (fun xi =>
            (meshRavelX ((1/1000000) * lx / ((7 : ℤ) : ℚ))
              (arange (-(Int.fdiv 7 2)) (Int.fdiv 7 2 + 1))).map
              (fun o => xi + o))).length := by
        rw [offsetGrid_length _ _ 49 (by rw [meshRavelY_length, hr7]),
          offsetGrid_length _ _ 49 (by rw [meshRavelX_length, hr7]), hy]
      have hzlen : (npTile z ((7 : ℤ) * 7).toNat).length =
          (x.flatMap (fun xi =>
            (meshRavelX ((1/1000000) * lx / ((7 : ℤ) : ℚ))
              (arange (-(Int.fdiv 7 2)) (Int.fdiv 7 2 + 1))).map
              (fun o => xi + o))).length := by
        rw [npTile_length, offsetGrid_length _ _ 49 (by rw [meshRavelX_length, hr7]), hz]
        have h49 : ((7 : ℤ) * 7).toNat = 49 := by decide
        rw [h49]
      have hfl : ∀ k : ℚ → ℚ → ℚ → σ → ℚ, ∀ mm : List σ,
          (fieldList k _ _ _ mm).length = _ :=
        fun k mm => fieldList_length k _ _ _ mm hylen hzlen
      by_cases h02 : alpha = 0 ∨ alpha = 2
      · simp only [if_pos h02, hsplit, fieldList_append]
        rw [meanBlocks_add _ _ _ _ (by rw [hfl, hfl])]
      · simp only [if_neg h02, hsplit, fieldList_append]
        rw [meanBlocks_add _ _ _ _ (by rw [hfl, hfl])]
    · refine ⟨_, _,
        magnetic_data_some_eq K x y z model alpha (lx, ly) (some gr) _ _ _ halpha hpg,
        magnetic_data_some_eq K x y z model alpha (lx, ly) none _ _ _ halpha hpg,
        fun hbad => absurd hbad (by simp), ?_⟩
      intro lx' ly' hsome xg yg zg hpg'
      obtain ⟨elx, ely⟩ : lx = lx' ∧ ly = ly' := by
        constructor <;> · injection hsome with h'; cases h'; rfl
      subst elx; subst ely
      have hinj := hpg.symm.trans hpg'
      rw [Except.ok.injEq, Prod.mk.injEq, Prod.mk.injEq, Option.some.injEq] at hinj
      obtain ⟨exg, eyg, ezg⟩ := hinj
      subst exg; subst eyg; subst ezg
      rfl

/-- Witness for C8: two distinct one-prism models, plane 0, direct mode. -/
theorem magnetic_data_superposition_witness :
    (((0 : ℤ) = 0 ∨ (0 : ℤ) = 1 ∨ (0 : ℤ) = 2 ∨ (0 : ℤ) = 3) ∧
      ([(0 : ℚ)]).length = ([(0 : ℚ)]).length ∧
      ([(1 : ℚ)]).length = ([(0 : ℚ)]).length ∧
      (∀ ea ∈ (none : Option (ℚ × ℚ)), 0 < ea.1 ∧ 0 < ea.2)) ∧
    ∃ B12 B1 B2,
      magnetic_data boolKernels [0] [0] [1] [true, false] 0 none none = .ok B12 ∧
      magnetic_data boolKernels [0] [0] [1] [true] 0 none none = .ok B1 ∧
      magnetic_data boolKernels [0] [0] [1] [false] 0 none none = .ok B2 ∧
      B12 = List.zipWith (· + ·) B1 B2 := by
  refine ⟨⟨Or.inl rfl, rfl, rfl, by simp⟩, ?_⟩
  exact (magnetic_data_superposition boolKernels [0] [0] [1] true false [true]
    [()] 0 none (Or.inl rfl) rfl rfl (by simp)).1

theorem zipWith_add_getD (u v : List ℚ) (n : ℕ) (hu : n < u.length)
    (hv : n < v.length) :
    (List.zipWith (· + ·) u v).getD n 0 = u.getD n 0 + v.getD n 0 := by
  rw [List.getD_eq_getElem _ _ (by rw [List.length_zipWith]; omega),
    List.getElem_zipWith, List.getD_eq_getElem _ _ hu,
    List.getD_eq_getElem _ _ hv]

/-- C4: with an effective area, both `magnetic_data` and `sensitivity`
supersample on the `point2grid` grid built at the hard-coded `ns = 7`
(neither takes any caller resolution), and reduce each contiguous
per-sensor block of 49 kernel values to the single value
`(sum of the 49 values) / 49` — the arithmetic mean. -/
theorem fixed_ns7_averaging {σ γ : Type} [Inhabited σ] (K : Kernels σ γ)
    (P : ℕ) (x y z : List ℚ) (model : List σ) (grains : Option (List γ))
    (alpha : ℤ) (lx ly : ℚ) (G0 : ℕ → ℕ → ℚ)
    (halpha : alpha = 0 ∨ alpha = 1 ∨ alpha = 2 ∨ alpha = 3)
    (hlx : 0 < lx) (hly : 0 < ly) (hy : y.length = x.length)
    (hz : z.length = x.length) (hm : ¬ model.length < P) :
    ∀ xg yg zg, point2grid x y (lx, ly) 7 (some z) = .ok (xg, yg, some zg) →
      (∃ B, magnetic_data K x y z model alpha (some (lx, ly)) grains = .ok B ∧
        ∀ n, n < x.length → B.getD n 0 =
          (∑ q ∈ Finset.range 49,
            (fieldList
              (if alpha = 0 ∨ alpha = 2 then K.prism_bz else K.prism_by)
              xg yg zg model).getD (n * 49 + q) 0) / 49 +
          (match grains with
           | none => 0
           | some gr =>
             (∑ q ∈ Finset.range 49,
               (fieldList
                 (if alpha = 0 ∨ alpha = 2 then K.sphere_bz else K.sphere_by)
                 xg yg zg gr).getD (n * 49 + q) 0) / 49)) ∧
      (∃ G, sensitivity K P x y z model alpha (some (lx, ly)) G0 = .ok G ∧
        ∀ n, n < x.length → ∀ i, i < P → ∀ s, s < 3 →
          G n (3 * i + s) = CM * T2NT *
            ((∑ q ∈ Finset.range 49,
              (kernelMap (fun a b c =>
                (if alpha = 0 ∨ alpha = 2 then
                   (if s = 0 then K.kernelxz else if s = 1 then K.kernelyz
                    else K.kernelzz)
                 else
                   (if s = 0 then K.kernelxy else if s = 1 then K.kernelyy
                    else K.kernelyz))
                a b c (model.getD i default)) xg yg zg).getD (n * 49 + q) 0)
              / 49)) := by
  have hpg := point2grid_eq x y z lx ly 7 hlx hly hy.symm hz.symm
    (by decide) (by decide)
  have hr7 : (arange (-(Int.fdiv 7 2)) (Int.fdiv 7 2 + 1)).length = 7 := by
    rw [arange_length]
    decide
  intro xg yg zg hpg'
  have hinj := hpg.symm.trans hpg'
  rw [Except.ok.injEq, Prod.mk.injEq, Prod.mk.injEq, Option.some.injEq] at hinj
  obtain ⟨exg, eyg, ezg⟩ := hinj
  have hxglen : xg.length = x.length * 49 := by
    rw [← exg, offsetGrid_length _ _ 49 (by rw [meshRavelX_length, hr7])]
  have hyglen : yg.length = x.length * 49 := by
    rw [← eyg, offsetGrid_length _ _ 49 (by rw [meshRavelY_length, hr7]), hy]
  have hzglen : zg.length = x.length * 49 := by
    have h49 : ((7 : ℤ) * 7).toNat = 49 := by decide
    rw [← ezg, npTile_length, hz, h49]
  have hyx : yg.length = xg.length := by rw [hyglen, hxglen]
  have hzx : zg.length = xg.length := by rw [hzglen, hxglen]
  constructor
  · refine ⟨_, magnetic_data_some_eq K x y z model alpha (lx, ly) grains
      xg yg zg halpha hpg', ?_⟩
    intro n hn
    have hblock : ∀ k : ℚ → ℚ → ℚ → σ → ℚ, ∀ mm : List σ,
        (meanBlocks (fieldList k xg yg zg mm) x.length 49).getD n 0 =
          (∑ q ∈ Finset.range 49,
            (fieldList k xg yg zg mm).getD (n * 49 + q) 0) / 49 := by
      intro k mm
      rw [meanBlocks_getD _ _ _ _ hn,
        block_sum_eq _ _ _ (by
          rw [fieldList_length _ _ _ _ _ hyx hzx, hxglen]
          calc n * 49 + 49 = (n + 1) * 49 := by ring
          _ ≤ x.length * 49 := Nat.mul_le_mul_right 49 hn)]
      norm_num
    have hblockg : ∀ k : ℚ → ℚ → ℚ → γ → ℚ, ∀ gg : List γ,
        (meanBlocks (fieldList k xg yg zg gg) x.length 49).getD n 0 =
          (∑ q ∈ Finset.range 49,
            (fieldList k xg yg zg gg).getD (n * 49 + q) 0) / 49 := by
      intro k gg
      rw [meanBlocks_getD _ _ _ _ hn,
        block_sum_eq _ _ _ (by
          rw [fieldList_length _ _ _ _ _ hyx hzx, hxglen]
          calc n * 49 + 49 = (n + 1) * 49 := by ring
          _ ≤ x.length * 49 := Nat.mul_le_mul_right 49 hn)]
      norm_num
    cases grains with
    | none =>
      by_cases h02 : alpha = 0 ∨ alpha = 2
      · simp only [if_pos h02]
        rw [hblock, add_zero]
      · simp only [if_neg h02]
        rw [hblock, add_zero]
    | some gr =>
      have hgetD : ∀ u v : List ℚ, u.length = x.length → v.length = x.length →
          (List.zipWith (· + ·) u v).getD n 0 = u.getD n 0 + v.getD n 0 :=
        fun u v hu hv => zipWith_add_getD u v n (by omega) (by omega)
      by_cases h02 : alpha = 0 ∨ alpha = 2
      · simp only [if_pos h02]
        rw [hgetD _ _ (meanBlocks_length _ _ _) (meanBlocks_length _ _ _),
          hblock, hblockg]
      · simp only [if_neg h02]
        rw [hgetD _ _ (meanBlocks_length _ _ _) (meanBlocks_length _ _ _),
          hblock, hblockg]
  · have hcols : ∃ k1 k2 k3, sensCols K alpha = some (k1, k2, k3) ∧
        (∀ s : ℕ, (if s = 0 then k1 else if s = 1 then k2 else k3) =
          (if alpha = 0 ∨ alpha = 2 then
             (if s = 0 then K.kernelxz else if s = 1 then K.kernelyz
              else K.kernelzz)
           else
             (if s = 0 then K.kernelxy else if s = 1 then K.kernelyy
              else K.kernelyz))) := by
      by_cases h02 : alpha = 0 ∨ alpha = 2
      · exact ⟨_, _, _, sensCols_02 K alpha h02, fun s => by rw [if_pos h02]⟩
      · exact ⟨_, _, _, sensCols_13 K alpha (by omega), fun s => by rw [if_neg h02]⟩
    obtain ⟨k1, k2, k3, hc, hks⟩ := hcols
    obtain ⟨G, hG, hent⟩ := sensitivity_entries_colValue K P x y z model alpha
      (some (lx, ly)) G0 k1 k2 k3 hc hm hy hz
      (by intro ea hea'; cases hea'; exact ⟨hlx, hly⟩)
    refine ⟨G, hG, ?_⟩
    intro n hn i hi s hs
    rw [hent n hn i hi s hs]
    simp only [sensColValue, hpg', hks s]
    congr 1
    rw [meanBlocks_getD _ _ _ _ hn,
      block_sum_eq _ _ _ (by
        rw [kernelMap_length _ _ _ _ hyx hzx, hxglen]
        calc n * 49 + 49 = (n + 1) * 49 := by ring
        _ ≤ x.length * 49 := Nat.mul_le_mul_right 49 hn)]
    norm_num

/-- Witness for C4: one sensor, one prism, plane 0,
`effective_area = (3, 3)`; both operations succeed on the `ns = 7` grid. -/
theorem fixed_ns7_averaging_witness :
    (((0 : ℤ) = 0 ∨ (0 : ℤ) = 1 ∨ (0 : ℤ) = 2 ∨ (0 : ℤ) = 3) ∧ (0 : ℚ) < 3 ∧
      ([(20 : ℚ)]).length = ([(10 : ℚ)]).length ∧
      ([(5 : ℚ)]).length = ([(10 : ℚ)]).length ∧
      ¬ ([()] : List Unit).length < 1) ∧
    ∃ xg yg zg : List ℚ,
      point2grid [10] [20] ((3 : ℚ), (3 : ℚ)) 7 (some [5]) =
        .ok (xg, yg, some zg) ∧
      (∃ B, magnetic_data unitKernels [10] [20] [5] [()] 0
        (some ((3 : ℚ), (3 : ℚ))) none = .ok B) ∧
      (∃ G, sensitivity unitKernels 1 [10] [20] [5] [()] 0
        (some ((3 : ℚ), (3 : ℚ))) (fun _ _ => 1) = .ok G) := by
  refine ⟨⟨Or.inl rfl, by decide, rfl, rfl, by decide⟩, ?_⟩
  have hpg := point2grid_eq [10] [20] [5] 3 3 7 (by decide) (by decide) rfl rfl
    (by decide) (by decide)
  obtain ⟨⟨B, hB, -⟩, ⟨G, hG, -⟩⟩ := fixed_ns7_averaging unitKernels 1 [10] [20]
    [5] [()] none 0 3 3 (fun _ _ => 1) (Or.inl rfl) (by decide) (by decide) rfl
    rfl (by decide) _ _ _ hpg
  exact ⟨_, _, _, hpg, ⟨B, hB⟩, ⟨G, hG⟩⟩

/-! Validation behavior (claim C2). -/

theorem sensitivity_none_short {σ γ : Type} [Inhabited σ] (K : Kernels σ γ)
    (P : ℕ) (x y z : List ℚ) (model : List σ) (alpha : ℤ) (G0 : ℕ → ℕ → ℚ)
    (halpha : alpha = 0 ∨ alpha = 1 ∨ alpha = 2 ∨ alpha = 3)
    (hshort : model.length < P) :
    sensitivity K P x y z model alpha none G0 = .error .indexError := by
  have hcols : ∃ k1 k2 k3, sensCols K alpha = some (k1, k2, k3) := by
    by_cases h02 : alpha = 0 ∨ alpha = 2
    · exact ⟨_, _, _, sensCols_02 K alpha h02⟩
    · exact ⟨_, _, _, sensCols_13 K alpha (by omega)⟩
  obtain ⟨k1, k2, k3, hc⟩ := hcols
  simp only [sensitivity, hc]
  rw [if_pos hshort]

/-- C2 (counterexample to the claim as stated): `sensitivity` performs no
plane-index validation.  At the out-of-range `alpha = 4` it is not
rejected: it returns `.ok` with the uninitialized `np.empty` storage
(here the all-ones garbage) scaled by `CM * T2NT`. -/
theorem sensitivity_alpha4_returns_garbage :
    sensitivity unitKernels 1 [0] [0] [0] [()] 4 none (fun _ _ => 1) =
      .ok (fun n j => CM * T2NT * 1) :=
  sensitivity_none_invalid unitKernels 1 [0] [0] [0] [()] 4 (fun _ _ => 1)
    (sensCols_invalid unitKernels 4 (by decide))

/-- C2 (amended): `magnetic_data` rejects an out-of-range plane index
eagerly with the invalid-argument condition, but `sensitivity` does not
validate the plane index at all — for `alpha ∉ {0,1,2,3}` it returns the
uninitialized storage scaled by `CM * T2NT`, in both modes — `coordplane`
fails only at its final indexing with an index error rather than an eager
rejection, and a source model shorter than the requested `P` is detected
in `sensitivity` only as the loop's index error. -/
theorem validation_behavior {σ γ : Type} [Inhabited σ] (K : Kernels σ γ) :
    (∀ (x y z : List ℚ) (model : List σ) (alpha : ℤ) (ea? : Option (ℚ × ℚ))
        (grains : Option (List γ)),
      ¬(alpha = 0 ∨ alpha = 1 ∨ alpha = 2 ∨ alpha = 3) →
      magnetic_data K x y z model alpha ea? grains =
        .error (.assertionError "alpha must be equal to 0, 1, 2 or 3")) ∧
    (∀ (P : ℕ) (x y z : List ℚ) (model : List σ) (alpha : ℤ)
        (G0 : ℕ → ℕ → ℚ),
      ¬(alpha = 0 ∨ alpha = 1 ∨ alpha = 2 ∨ alpha = 3) →
      sensitivity K P x y z model alpha none G0 =
        .ok (fun n j => CM * T2NT * G0 n j)) ∧
    (∀ (P : ℕ) (x y z : List ℚ) (model : List σ) (alpha : ℤ)
        (G0 : ℕ → ℕ → ℚ) (lx ly : ℚ),
      ¬(alpha = 0 ∨ alpha = 1 ∨ alpha = 2 ∨ alpha = 3) →
      0 < lx → 0 < ly → y.length = x.length → z.length = x.length →
      sensitivity K P x y z model alpha (some (lx, ly)) G0 =
        .ok (fun n j => CM * T2NT * G0 n j)) ∧
    (∀ (P : ℕ) (x y z : List ℚ) (model : List σ) (alpha : ℤ)
        (G0 : ℕ → ℕ → ℚ),
      (alpha = 0 ∨ alpha = 1 ∨ alpha = 2 ∨ alpha = 3) → model.length < P →
      sensitivity K P x y z model alpha none G0 = .error .indexError) ∧
    (∀ (h L : ℝ) (Nx Ny : ℕ) (area : ℝ × ℝ × ℝ × ℝ) (alpha : ℤ) (theta : ℝ),
      ¬(alpha = 0 ∨ alpha = 1 ∨ alpha = 2 ∨ alpha = 3) →
      coordplane h L Nx Ny area alpha theta = .error .indexError) := by
  refine ⟨?_, ?_, ?_, ?_, ?_⟩
  · intro x y z model alpha ea? grains hbad
    rw [magnetic_data.eq_def, if_pos hbad]
  · intro P x y z model alpha G0 hbad
    exact sensitivity_none_invalid K P x y z model alpha G0
      (sensCols_invalid K alpha hbad)
  · intro P x y z model alpha G0 lx ly hbad hlx hly hy hz
    exact sensitivity_some_invalid K P x y z model alpha (lx, ly) G0 _ _ _
      (point2grid_eq x y z lx ly 7 hlx hly hy.symm hz.symm (by decide)
        (by decide))
      (sensCols_invalid K alpha hbad)
  · intro P x y z model alpha G0 halpha hshort
    exact sensitivity_none_short K P x y z model alpha G0 halpha hshort
  · intro h L Nx Ny area alpha theta hbad
    rw [coordplane, if_neg (fun he => hbad (Or.inl he)),
      if_neg (fun he => hbad (Or.inr (Or.inl he))),
      if_neg (fun he => hbad (Or.inr (Or.inr (Or.inl he)))),
      if_neg (fun he => hbad (Or.inr (Or.inr (Or.inr he))))]

/-- Witness for the amended C2 at the concrete out-of-range index
`alpha = 4` (and a one-prism model shorter than `P = 2`). -/
theorem validation_behavior_witness :
    (¬((4 : ℤ) = 0 ∨ (4 : ℤ) = 1 ∨ (4 : ℤ) = 2 ∨ (4 : ℤ) = 3)) ∧
    magnetic_data unitKernels [0] [0] [0] [()] 4 none none =
      .error (.assertionError "alpha must be equal to 0, 1, 2 or 3") ∧
    ((0 : ℤ) = 0 ∨ (0 : ℤ) = 1 ∨ (0 : ℤ) = 2 ∨ (0 : ℤ) = 3) ∧
    ([()] : List Unit).length < 2 ∧
    sensitivity unitKernels 2 [0] [0] [0] [()] 0 none (fun _ _ => 1) =
      .error .indexError := by
  refine ⟨by decide, ?_, Or.inl rfl, by decide, ?_⟩
  · exact (validation_behavior unitKernels).1 [0] [0] [0] [()] 4 none none
      (by decide)
  · exact (validation_behavior unitKernels).2.2.2.1 2 [0] [0] [0] [()] 0
      (fun _ _ => 1) (Or.inl rfl) (by decide)

/-- C6: `coordplane` uses the stand-off `voo = h·1e-6 + 0.5·L`, places the
constant axis at `+voo` for planes 1 and 2 and at `-voo` for planes 0 and
3, varies `(x, y)` holding `z` constant for planes 0 and 2 and varies
`(x, z)` holding `y` constant for planes 1 and 3, and rotates the two
varying coordinate arrays elementwise by the standard 2D rotation with the
cosine and sine of `theta` converted from degrees, while the constant axis
— the replicated `±voo` array — passes through unrotated. -/
theorem coordplane_plane_geometry (h L : ℝ) (Nx Ny : ℕ)
    (area : ℝ × ℝ × ℝ × ℝ) (theta : ℝ) :
    (coordplane h L Nx Ny area 0 theta =
      .ok (List.zipWith (fun a b =>
              Real.cos (theta * (Real.pi / 180)) * a -
                Real.sin (theta * (Real.pi / 180)) * b)
            (regular area Nx Ny (-(h * (1 / 1000000) + (1 / 2) * L))).1
            (regular area Nx Ny (-(h * (1 / 1000000) + (1 / 2) * L))).2.1,
           List.zipWith (fun a b =>
              Real.sin (theta * (Real.pi / 180)) * a +
                Real.cos (theta * (Real.pi / 180)) * b)
            (regular area Nx Ny (-(h * (1 / 1000000) + (1 / 2) * L))).1
            (regular area Nx Ny (-(h * (1 / 1000000) + (1 / 2) * L))).2.1,
           (regular area Nx Ny (-(h * (1 / 1000000) + (1 / 2) * L))).2.2)) ∧
    (coordplane h L Nx Ny area 1 theta =
      .ok (List.zipWith (fun a b =>
              Real.cos (theta * (Real.pi / 180)) * a -
                Real.sin (theta * (Real.pi / 180)) * b)
            (regular area Nx Ny (h * (1 / 1000000) + (1 / 2) * L)).1
            (regular area Nx Ny (h * (1 / 1000000) + (1 / 2) * L)).2.1,
           (regular area Nx Ny (h * (1 / 1000000) + (1 / 2) * L)).2.2,
           List.zipWith (fun a b =>
              Real.sin (theta * (Real.pi / 180)) * a +
                Real.cos (theta * (Real.pi / 180)) * b)
            (regular area Nx Ny (h * (1 / 1000000) + (1 / 2) * L)).1
            (regular area Nx Ny (h * (1 / 1000000) + (1 / 2) * L)).2.1)) ∧
    (coordplane h L Nx Ny area 2 theta =
      .ok (List.zipWith (fun a b =>
              Real.cos (theta * (Real.pi / 180)) * a -
                Real.sin (theta * (Real.pi / 180)) * b)
            (regular area Nx Ny (h * (1 / 1000000) + (1 / 2) * L)).1
            (regular area Nx Ny (h * (1 / 1000000) + (1 / 2) * L)).2.1,
           List.zipWith (fun a b =>
              Real.sin (theta * (Real.pi / 180)) * a +
                Real.cos (theta * (Real.pi / 180)) * b)
            (regular area Nx Ny (h * (1 / 1000000) + (1 / 2) * L)).1
            (regular area Nx Ny (h * (1 / 1000000) + (1 / 2) * L)).2.1,
           (regular area Nx Ny (h * (1 / 1000000) + (1 / 2) * L)).2.2)) ∧
    (coordplane h L Nx Ny area 3 theta =
      .ok (List.zipWith (fun a b =>
              Real.cos (theta * (Real.pi / 180)) * a -
                Real.sin (theta * (Real.pi / 180)) * b)
            (regular area Nx Ny (-(h * (1 / 1000000) + (1 / 2) * L))).1
            (regular area Nx Ny (-(h * (1 / 1000000) + (1 / 2) * L))).2.1,
           (regular area Nx Ny (-(h * (1 / 1000000) + (1 / 2) * L))).2.2,
           List.zipWith (fun a b =>
              Real.sin (theta * (Real.pi / 180)) * a +
                Real.cos (theta * (Real.pi / 180)) * b)
            (regular area Nx Ny (-(h * (1 / 1000000) + (1 / 2) * L))).1
            (regular area Nx Ny (-(h * (1 / 1000000) + (1 / 2) * L))).2.1)) ∧
    (∀ v : ℝ, (regular area Nx Ny v).2.2 = List.replicate (Nx * Ny) v) := by
  refine ⟨?_, ?_, ?_, ?_, fun v => rfl⟩
  · rw [coordplane, if_pos rfl]
  · rw [coordplane, if_neg (by decide), if_pos rfl]
  · rw [coordplane, if_neg (by decide), if_neg (by decide), if_pos rfl]
  · rw [coordplane, if_neg (by decide), if_neg (by decide), if_neg (by decide),
      if_pos rfl]
